import Mathlib

/-!
Verification of the printer fleet management module.

Shallow embedding of the module's data model and operations:
readings and per-period usage calculation (models/printer_reading.py),
the billing review workflow (models/printer_billing_review.py and its
line/counter models), partner counter prices
(models/partner_counter_price.py), and the token-authenticated sync API
(controllers/printer_api.py).

Modelling conventions:
- ORM recordsets become Lean lists; `search` with an `order` clause becomes
  filter + mergeSort on the ordering key.
- Datetimes become natural numbers (readings) or integers (alerts); the
  end-of-day extension of `date_to` is absorbed into the `dateToEnd`
  parameter.
- Monetary amounts and float prices become exact rationals.
- Fallible code (raised UserError / ValidationError, HTTP error responses)
  becomes `Except String` or explicit result constructors.
- Python truthiness of optional strings (`if not s`) is modelled by
  `truthyStr`: `none` and `some ""` are falsy.
-/

namespace PrintFleet

/-- Python truthiness for an optional string: absent and empty are falsy. -/
def truthyStr : Option String → Bool
  | none => false
  | some s => !(s == "")

/-- Python `x or d` for an optional string `x`: falsy values fall back to `d`. -/
def orDefault (s : Option String) (d : String) : String :=
  match s with
  | none => d
  | some v => if v = "" then d else v

/-! ## Counter types (models/counter_type.py) -/

/-- A `counter.type` record: an SNMP counter kind identified by OID. -/
structure CounterType where
  id : Nat
  oid : String
  code : String
  name : String
deriving DecidableEq, Repr

/-! ## Printers (models/printer.py), reduced to the fields the claims use -/

/-- A `printer.device` record (billing-relevant fields). -/
structure Printer where
  id : Nat
  partner_id : Nat
  location_id : Option Nat
  name : String
deriving DecidableEq, Repr

/-! ## Readings (models/printer_reading.py, models/printer_reading_counter.py) -/

/-- A `printer.reading.counter` row: one counter value inside a reading.
`oid` and `counter_code` are the related fields copied from the counter type. -/
structure ReadingCounter where
  counter_type_id : Nat
  oid : String
  counter_code : String
  value : Int
deriving DecidableEq, Repr

/-- A `printer.reading` record: a timestamped set of counter values. -/
structure Reading where
  printer_id : Nat
  timestamp : Nat
  counter_ids : List ReadingCounter
deriving DecidableEq, Repr

/-- `PrinterReading.get_counter_value`: value of the counter matching the given
OID or internal code, or 0 when the reading has no such counter. -/
def Reading.get_counter_value (r : Reading) (oid_or_code : String) : Int :=
  match r.counter_ids.find? (fun c => c.oid == oid_or_code || c.counter_code == oid_or_code) with
  | some c => c.value
  | none => 0

/-- The database state the usage calculation runs against. -/
structure Env where
  counter_types : List CounterType
  printers : List Printer
  readings : List Reading
deriving Repr

/-- Ascending timestamp order on readings (`order='timestamp'`). -/
def readingLe (a b : Reading) : Prop := a.timestamp ≤ b.timestamp

/-- Descending timestamp order on readings (`order='timestamp desc'`). -/
def readingGe (a b : Reading) : Prop := b.timestamp ≤ a.timestamp

instance : DecidableRel readingLe := fun a b => Nat.decLe a.timestamp b.timestamp

instance : DecidableRel readingGe := fun a b => Nat.decLe b.timestamp a.timestamp

instance : IsTotal Reading readingLe := ⟨fun a b => Nat.le_total a.timestamp b.timestamp⟩

instance : IsTrans Reading readingLe := ⟨fun _ _ _ h1 h2 => Nat.le_trans h1 h2⟩

instance : IsTotal Reading readingGe := ⟨fun a b => Nat.le_total b.timestamp a.timestamp⟩

instance : IsTrans Reading readingGe := ⟨fun _ _ _ h1 h2 => Nat.le_trans h2 h1⟩

/-- `search([printer_id, timestamp >= date_from, timestamp <= date_to_end], order='timestamp')`:
the printer's readings inside the period, sorted by ascending timestamp. -/
def readings_in_period (env : Env) (printerId dateFrom dateToEnd : Nat) : List Reading :=
  List.insertionSort readingLe
    (env.readings.filter
      (fun r => r.printer_id == printerId
        && decide (dateFrom ≤ r.timestamp) && decide (r.timestamp ≤ dateToEnd)))

/-- `search([printer_id, timestamp < date_from], order='timestamp desc', limit=1)`:
the printer's latest reading strictly before the period, if any. -/
def previous_reading (env : Env) (printerId dateFrom : Nat) : Option Reading :=
  (List.insertionSort readingGe
    (env.readings.filter
      (fun r => r.printer_id == printerId && decide (r.timestamp < dateFrom)))).head?

/-- Whether a reading carries a counter of the given counter type. -/
def reading_carries_type (r : Reading) (tid : Nat) : Bool :=
  r.counter_ids.any (fun c => c.counter_type_id == tid)

/-- The union `counter_types_in_period |= reading.counter_ids.mapped('counter_type_id')`:
the distinct counter types appearing in the given readings. -/
def counter_types_in_period (env : Env) (rs : List Reading) : List CounterType :=
  env.counter_types.filter (fun t => rs.any (fun r => reading_carries_type r t.id))

/-- One entry of `counters_data` in `calculate_usage_by_printer`. -/
structure CounterUsage where
  counter_type_id : Nat
  counter_start : Int
  counter_end : Int
  total_pages : Int
deriving DecidableEq, Repr

/-- One entry of `usage_by_printer` in `calculate_usage_by_printer`. -/
structure PrinterUsage where
  printer_id : Nat
  printer_name : String
  counters : List CounterUsage
deriving DecidableEq, Repr

/-- The per-counter-type loop body of `calculate_usage_by_printer`: for each
counter type present in the period readings, the final counter is the last
period reading carrying that type, and the initial counter is the latest
reading before the period (its value looked up by the type's OID) or 0. -/
def calc_counters (env : Env) (printerId dateFrom : Nat) (rs : List Reading) :
    List CounterUsage :=
  (counter_types_in_period env rs).filterMap (fun t =>
    let readings_with_counter := rs.filter (fun r => reading_carries_type r t.id)
    match readings_with_counter.getLast? with
    | none => none
    | some last_reading =>
      let last_value := last_reading.get_counter_value t.oid
      let first_value :=
        match previous_reading env printerId dateFrom with
        | some prev => prev.get_counter_value t.oid
        | none => 0
      some { counter_type_id := t.id
             counter_start := first_value
             counter_end := last_value
             total_pages := max 0 (last_value - first_value) })

/-- `PrinterReading.calculate_usage_by_printer`: per-printer usage deltas for a
partner and period.  Printers with no readings in the period, and printers
whose period readings carry no counters, are skipped.  (The source checks
`counter_types_in_period` emptiness before the loop and `counters_data`
emptiness after it; the two are equivalent and merged into one check here.) -/
def calculate_usage_by_printer (env : Env) (partnerId dateFrom dateToEnd : Nat) :
    List PrinterUsage :=
  (env.printers.filter (fun p => p.partner_id == partnerId)).filterMap (fun p =>
    let rs := readings_in_period env p.id dateFrom dateToEnd
    if rs.isEmpty then none
    else
      let cs := calc_counters env p.id dateFrom rs
      if cs.isEmpty then none
      else some { printer_id := p.id, printer_name := p.name, counters := cs })

/-! ## Billing review counters (models/printer_billing_review_counter.py) -/

/-- A `printer.billing.review.counter` record: editable counter values for one
counter type on a review line.  `unit_price` is an editable price per page. -/
structure ReviewCounter where
  counter_type_id : Nat
  counter_name : String
  counter_start : Int
  counter_end : Int
  unit_price : Rat
deriving DecidableEq, Repr

/-- Computed `total_pages = max(0, counter_end - counter_start)`. -/
def ReviewCounter.total_pages (c : ReviewCounter) : Int :=
  max 0 (c.counter_end - c.counter_start)

/-- Computed `subtotal = total_pages * unit_price`. -/
def ReviewCounter.subtotal (c : ReviewCounter) : Rat :=
  (c.total_pages : Rat) * c.unit_price

/-- `_check_counters_valid`: the constraint on review counters; raises a
ValidationError for a negative start, a negative end, or end below start. -/
def check_counters_valid (c : ReviewCounter) : Except String Unit :=
  if c.counter_start < 0 then
    Except.error "El contador inicial no puede ser negativo"
  else if c.counter_end < 0 then
    Except.error "El contador final no puede ser negativo"
  else if c.counter_end < c.counter_start then
    Except.error "El contador final no puede ser menor que el inicial"
  else Except.ok ()

/-! ## Billing review lines (models/printer_billing_review_line.py) -/

/-- A `printer.billing.review.line` record: one printer inside a review,
with its editable counters.  `location_name` is the related location name
(`none` when the printer has no location). -/
structure ReviewLine where
  printer_name : String
  location_name : Option String
  include_in_invoice : Bool
  counter_line_ids : List ReviewCounter
deriving DecidableEq, Repr

/-- Computed line `total_pages`: sum of the pages of all its counters. -/
def ReviewLine.total_pages (l : ReviewLine) : Int :=
  (l.counter_line_ids.map ReviewCounter.total_pages).sum

/-- Computed line `estimated_amount`: sum of the counter subtotals when the
line is included in the invoice, else 0. -/
def ReviewLine.estimated_amount (l : ReviewLine) : Rat :=
  if l.include_in_invoice then (l.counter_line_ids.map ReviewCounter.subtotal).sum
  else 0

/-! ## Billing reviews (models/printer_billing_review.py) -/

/-- The review workflow states. -/
inductive RState where
  | draft
  | confirmed
  | invoiced
  | cancelled
deriving DecidableEq, Repr

/-- A `printer.billing.review` record (workflow-relevant fields). -/
structure Review where
  state : RState
  partner_id : Nat
  group_by_location : Bool
  line_ids : List ReviewLine
  invoice_id : Option Nat
deriving DecidableEq, Repr

/-- Computed review `total_amount`: sum of estimated amounts of the lines
marked `include_in_invoice`. -/
def Review.total_amount (r : Review) : Rat :=
  ((r.line_ids.filter (fun l => l.include_in_invoice)).map ReviewLine.estimated_amount).sum

/-- An invoice line created by `action_generate_invoice`.  `heading` is the
name that heads the generated description text: the location name when
grouping by location, the printer name otherwise.  The remainder of the
description (period, counter detail, printer list) is display text and is
elided. -/
structure InvoiceLine where
  heading : String
  quantity : Int
  price_unit : Rat
deriving DecidableEq, Repr

/-- The dict key `line.location_name or 'Sin ubicación'` used by
`action_generate_invoice` when grouping by location. -/
def review_location_key (l : ReviewLine) : String :=
  orDefault l.location_name "Sin ubicación"

/-- The `by_location` accumulation loop: each billable line adds its
`estimated_amount` to its location's entry, inserting a new entry at the end
for a location not seen before (Python dicts preserve insertion order). -/
def group_lines_aux : List (String × Rat) → List ReviewLine → List (String × Rat)
  | acc, [] => acc
  | acc, l :: ls =>
    let k := review_location_key l
    if acc.any (fun p => p.1 == k) then
      group_lines_aux
        (acc.map (fun p => if p.1 == k then (p.1, p.2 + l.estimated_amount) else p)) ls
    else group_lines_aux (acc ++ [(k, l.estimated_amount)]) ls

/-- The `by_location` dict of `action_generate_invoice`, reduced to the
amount accumulation: an insertion-ordered association list from location
name to the summed `estimated_amount` of that location's billable lines.
(The per-location counter-page and printer-name accumulations feed only the
description text and are elided.) -/
def group_lines_by_location (lines : List ReviewLine) : List (String × Rat) :=
  group_lines_aux [] lines

/-- The `lines_to_bill` filter of `action_generate_invoice`: included lines
with positive total pages. -/
def lines_to_bill (r : Review) : List ReviewLine :=
  r.line_ids.filter (fun l => l.include_in_invoice && decide (0 < l.total_pages))

/-- `action_generate_invoice`: refuses an already invoiced review, bills the
included lines with positive pages, builds one invoice line per location
(grouped) or per printer (ungrouped) with quantity 1 and the accumulated
estimated amount as unit price, and moves the review to `invoiced` with the
new invoice attached.  (Marking the period's readings as billed when
`only_not_billed` is set does not touch the review or the invoice and is
elided.) -/
def action_generate_invoice (r : Review) (newInvoiceId : Nat) :
    Except String (List InvoiceLine × Review) :=
  if r.state = RState.invoiced then
    Except.error "Esta revisión ya tiene una factura generada"
  else if (lines_to_bill r).isEmpty then
    Except.error "No hay impresoras con páginas para facturar"
  else
    let invoice_line_ids :=
      if r.group_by_location then
        (group_lines_by_location (lines_to_bill r)).map (fun p =>
          { heading := p.1, quantity := 1, price_unit := p.2 })
      else
        (lines_to_bill r).map (fun l =>
          { heading := l.printer_name, quantity := 1, price_unit := l.estimated_amount })
    Except.ok (invoice_line_ids,
      { r with state := RState.invoiced, invoice_id := some newInvoiceId })

/-- `action_confirm`: requires at least one line, then moves to `confirmed`.
It has no guard on the current state. -/
def action_confirm (r : Review) : Except String Review :=
  if r.line_ids.isEmpty then
    Except.error "Debe tener al menos una impresora en la revisión"
  else Except.ok { r with state := RState.confirmed }

/-- `action_cancel`: refuses an invoiced review, else moves to `cancelled`. -/
def action_cancel (r : Review) : Except String Review :=
  if r.state = RState.invoiced then
    Except.error "No se puede cancelar una revisión que ya tiene factura generada"
  else Except.ok { r with state := RState.cancelled }

/-- `action_set_to_draft`: refuses a review with an attached invoice, else
moves back to `draft`. -/
def action_set_to_draft (r : Review) : Except String Review :=
  if r.invoice_id.isSome then
    Except.error "No se puede volver a borrador una revisión con factura"
  else Except.ok { r with state := RState.draft }

/-- A freshly created review (the billing wizard creates reviews in state
`draft` with no invoice attached). -/
def new_review (partnerId : Nat) (grp : Bool) (lines : List ReviewLine) : Review :=
  { state := RState.draft
    partner_id := partnerId
    group_by_location := grp
    line_ids := lines
    invoice_id := none }

/-- One successful workflow action on a review. -/
inductive ReviewStep : Review → Review → Prop where
  | confirm {r r' : Review} : action_confirm r = Except.ok r' → ReviewStep r r'
  | generate {r r' : Review} (inv : Nat) (lines : List InvoiceLine) :
      action_generate_invoice r inv = Except.ok (lines, r') → ReviewStep r r'
  | cancel {r r' : Review} : action_cancel r = Except.ok r' → ReviewStep r r'
  | set_to_draft {r r' : Review} : action_set_to_draft r = Except.ok r' → ReviewStep r r'

/-- Review states reachable from a freshly created review through the
workflow actions. -/
inductive ReviewReachable : Review → Prop where
  | init (partnerId : Nat) (grp : Bool) (lines : List ReviewLine) :
      ReviewReachable (new_review partnerId grp lines)
  | step {r r' : Review} : ReviewReachable r → ReviewStep r r' → ReviewReachable r'

/-! ## Partner counter prices (models/partner_counter_price.py) -/

/-- A `partner.counter.price` record: a per-partner price for one counter
type.  An SQL constraint keeps the (partner, counter type) pair unique. -/
structure PartnerCounterPrice where
  partner_id : Nat
  counter_type_id : Nat
  unit_price : Rat
deriving DecidableEq, Repr

/-- `get_price_for_partner_counter`: the configured price for the pair, or
0.0 when no record exists. -/
def get_price_for_partner_counter (prices : List PartnerCounterPrice)
    (partnerId counterTypeId : Nat) : Rat :=
  match prices.find? (fun p =>
      p.partner_id == partnerId && p.counter_type_id == counterTypeId) with
  | some p => p.unit_price
  | none => 0

/-- The review-counter creation step of the billing wizard
(wizards/printer_billing_wizard.py, `action_generate_invoice`): a counter is
created from one usage entry with the unit price configured for the partner
and counter type (or 0.0). -/
def wizard_create_counter (prices : List PartnerCounterPrice) (partnerId : Nat)
    (name : String) (cd : CounterUsage) : ReviewCounter :=
  { counter_type_id := cd.counter_type_id
    counter_name := name
    counter_start := cd.counter_start
    counter_end := cd.counter_end
    unit_price := get_price_for_partner_counter prices partnerId cd.counter_type_id }

/-! ## The sync API (controllers/printer_api.py) -/

/-- The severity translation dict of `normalize_severity`. -/
def severity_map : List (String × String) :=
  [("info", "low"), ("warning", "medium"), ("error", "high"), ("critical", "critical"),
   ("low", "low"), ("medium", "medium"), ("high", "high")]

/-- `normalize_severity`: dict lookup with default `medium`. -/
def normalize_severity (severity : String) : String :=
  (severity_map.lookup severity).getD "medium"

/-- A `printer.location` record (token-relevant fields,
models/printer_location.py). -/
structure PLocation where
  id : Nat
  name : String
  access_token : String
  is_active : Bool
  token_active : Bool
deriving DecidableEq, Repr

/-- Outcome of the `validate_location_token` decorator: an HTTP error
response with its status code, or the authenticated location handed to the
endpoint body. -/
inductive AuthResult where
  | denied (status : Nat) (error : String)
  | granted (loc : PLocation)
deriving DecidableEq, Repr

/-- `validate_location_token`: 401 when the `X-Location-Token` header is
falsy (absent or empty), 403 when no active location carries the token or
the matched location's token is deactivated, otherwise the request reaches
the endpoint body with the location.  (The token usage statistics update is
elided.) -/
def validate_location_token (header_token : Option String)
    (locations : List PLocation) : AuthResult :=
  if !(truthyStr header_token) then
    AuthResult.denied 401 "Location Token requerido"
  else
    match header_token with
    | none => AuthResult.denied 401 "Location Token requerido"
    | some tok =>
      match locations.find? (fun L => L.access_token == tok && L.is_active) with
      | none => AuthResult.denied 403 "Token inválido o inactivo"
      | some loc =>
        if loc.token_active then AuthResult.granted loc
        else AuthResult.denied 403 "Token desactivado"

/-! ### Sync endpoint state and per-item processing -/

/-- A `printer.device` row as the sync endpoints see it: its identity fields
and owning location. -/
structure PrinterRec where
  id : Nat
  location_id : Nat
  ip_address : Option String
  mac_address : Option String
  serial_number : Option String
deriving DecidableEq, Repr

/-- One item of the `sync_printers` payload (identity fields; the remaining
prepared fields — model, status, SNMP settings, timestamps — do not affect
which record is matched or which location it is assigned to and are elided). -/
structure PrinterPayload where
  ip_address : Option String
  mac_address : Option String
  serial_number : Option String
deriving DecidableEq, Repr

/-- `_prepare_printer_values` applied as a `write`: the prepared dict always
carries `location_id = location.id`; `None` values are dropped, so absent
payload fields leave the stored field unchanged. -/
def write_printer_values (p : PrinterRec) (d : PrinterPayload) (locId : Nat) : PrinterRec :=
  { p with
    location_id := locId
    ip_address := if d.ip_address.isSome then d.ip_address else p.ip_address
    mac_address := if d.mac_address.isSome then d.mac_address else p.mac_address
    serial_number := if d.serial_number.isSome then d.serial_number else p.serial_number }

/-- `_prepare_printer_values` applied as a `create`: a fresh record at the
token's location. -/
def create_printer_values (d : PrinterPayload) (locId nextId : Nat) : PrinterRec :=
  { id := nextId
    location_id := locId
    ip_address := d.ip_address
    mac_address := d.mac_address
    serial_number := d.serial_number }

/-- The three-step lookup of `sync_printers`: within the token's location,
first by MAC address, then by serial number, then by IP address. -/
def find_printer_for_sync (printers : List PrinterRec) (locId : Nat)
    (d : PrinterPayload) : Option PrinterRec :=
  let by_mac :=
    if truthyStr d.mac_address then
      printers.find? (fun p => p.location_id == locId && p.mac_address == d.mac_address)
    else none
  match by_mac with
  | some p => some p
  | none =>
    let by_serial :=
      if truthyStr d.serial_number then
        printers.find? (fun p => p.location_id == locId && p.serial_number == d.serial_number)
      else none
    match by_serial with
    | some p => some p
    | none => printers.find? (fun p => p.location_id == locId && p.ip_address == d.ip_address)

/-- Mutable state of one `sync_printers` request. -/
structure PrintersSyncState where
  printers : List PrinterRec
  next_id : Nat
  created : Nat
  updated : Nat
deriving DecidableEq, Repr

/-- One iteration of the `sync_printers` loop: a falsy IP records an error;
otherwise the matched printer is updated in place, or a new printer is
created, always at the token's location. -/
def process_printer_item (locId : Nat) (s : PrintersSyncState) (d : PrinterPayload) :
    PrintersSyncState × Option String :=
  if !(truthyStr d.ip_address) then (s, some "Impresora sin IP address")
  else
    match find_printer_for_sync s.printers locId d with
    | some p =>
      ({ s with
          printers := s.printers.map (fun q =>
            if q.id == p.id then write_printer_values q d locId else q)
          updated := s.updated + 1 }, none)
    | none =>
      ({ s with
          printers := s.printers ++ [create_printer_values d locId s.next_id]
          next_id := s.next_id + 1
          created := s.created + 1 }, none)

/-- One item of the `sync_readings` payload.  `timestamp` stands for the
already parsed timestamp (`parse_timestamp` falls back to the current time,
so it always yields a value); the per-counter payload is processed into
separate `printer.reading.counter` rows attached to the created reading and
does not affect which printer the reading references, so it is elided. -/
structure ReadingPayload where
  printer_ip : Option String
  timestamp : Int
  status : Option String
deriving DecidableEq, Repr

/-- The `reading_values` dict of `sync_readings`: the created
`printer.reading` row. -/
structure CreatedReading where
  printer_id : Nat
  timestamp : Int
  status : String
deriving DecidableEq, Repr

/-- Mutable state of one `sync_readings` request. -/
structure ReadingsSyncState where
  readings : List CreatedReading
  created : Nat
  skipped : Nat
deriving DecidableEq, Repr

/-- One iteration of the `sync_readings` loop: a falsy IP records an error
and counts as skipped; an IP with no printer at the token's location counts
as skipped without creating anything; otherwise a reading is created for the
matched printer.  (The follow-up `printer.write` of `last_reading`/`status`
touches no identity or location field and is elided.) -/
def process_reading_item (printers : List PrinterRec) (locId : Nat)
    (s : ReadingsSyncState) (d : ReadingPayload) : ReadingsSyncState × Option String :=
  if !(truthyStr d.printer_ip) then
    ({ s with skipped := s.skipped + 1 }, some "Lectura sin printer_ip")
  else
    match printers.find? (fun p => p.location_id == locId && p.ip_address == d.printer_ip) with
    | none => ({ s with skipped := s.skipped + 1 }, none)
    | some p =>
      ({ s with
          readings := s.readings ++
            [{ printer_id := p.id, timestamp := d.timestamp, status := d.status.getD "unknown" }]
          created := s.created + 1 }, none)

/-- One item of the `sync_consumables` payload (value fields — type, color,
level, model, status — are elided: they carry no printer or location
reference). -/
structure ConsumablePayload where
  printer_ip : Option String
  supply_name : Option String
deriving DecidableEq, Repr

/-- A `printer.consumable` row (identity fields). -/
structure ConsumableRec where
  printer_id : Nat
  supply_name : String
deriving DecidableEq, Repr

/-- Mutable state of one `sync_consumables` request. -/
structure ConsumablesSyncState where
  consumables : List ConsumableRec
  created : Nat
  updated : Nat
  skipped : Nat
deriving DecidableEq, Repr

/-- One iteration of the `sync_consumables` loop: a falsy IP or supply name
records an error and counts as skipped; an IP with no printer at the token's
location counts as skipped; otherwise the consumable matched by (printer,
supply name) is updated, or a new one is created for the matched printer. -/
def process_consumable_item (printers : List PrinterRec) (locId : Nat)
    (s : ConsumablesSyncState) (d : ConsumablePayload) :
    ConsumablesSyncState × Option String :=
  if !(truthyStr d.printer_ip) || !(truthyStr d.supply_name) then
    ({ s with skipped := s.skipped + 1 }, some "Consumible sin printer_ip o supply_name")
  else
    match printers.find? (fun p => p.location_id == locId && p.ip_address == d.printer_ip) with
    | none => ({ s with skipped := s.skipped + 1 }, none)
    | some p =>
      let name := d.supply_name.getD ""
      if s.consumables.any (fun c => c.printer_id == p.id && c.supply_name == name) then
        ({ s with updated := s.updated + 1 }, none)
      else
        ({ s with
            consumables := s.consumables ++ [{ printer_id := p.id, supply_name := name }]
            created := s.created + 1 }, none)

/-- One item of the `sync_alerts` payload.  `timestamp` stands for the
parsed timestamp (the source falls back to the current time when absent). -/
structure AlertPayload where
  printer_ip : Option String
  alert_type : Option String
  severity : Option String
  message : Option String
  timestamp : Int
  resolved : Option Bool
deriving DecidableEq, Repr

/-- A `printer.alert` row (the fields `sync_alerts` reads and writes). -/
structure AlertRec where
  printer_id : Nat
  alert_type : String
  severity : String
  message : Option String
  timestamp : Int
  resolved : Bool
deriving DecidableEq, Repr

/-- Mutable state of one `sync_alerts` request. -/
structure AlertsSyncState where
  alerts : List AlertRec
  created : Nat
  duplicates : Nat
  skipped : Nat
deriving DecidableEq, Repr

/-- Twenty-four hours, in the seconds the parsed timestamps count. -/
def alert_dedup_window : Int := 86400

/-- One iteration of the `sync_alerts` loop: a falsy IP records an error and
counts as skipped; an IP with no printer at the token's location counts as
skipped; a similar unresolved alert within the last 24 hours counts as a
duplicate; otherwise an alert is created for the matched printer with its
severity normalized. -/
def process_alert_item (printers : List PrinterRec) (locId : Nat)
    (s : AlertsSyncState) (d : AlertPayload) : AlertsSyncState × Option String :=
  if !(truthyStr d.printer_ip) then
    ({ s with skipped := s.skipped + 1 }, some "Alerta sin printer_ip")
  else
    match printers.find? (fun p => p.location_id == locId && p.ip_address == d.printer_ip) with
    | none => ({ s with skipped := s.skipped + 1 }, none)
    | some p =>
      let threshold := d.timestamp - alert_dedup_window
      let existing := s.alerts.any (fun a =>
        a.printer_id == p.id && a.alert_type == d.alert_type.getD "other"
          && a.message == d.message && decide (threshold ≤ a.timestamp) && !a.resolved)
      if existing then ({ s with duplicates := s.duplicates + 1 }, none)
      else
        ({ s with
            alerts := s.alerts ++
              [{ printer_id := p.id
                 alert_type := d.alert_type.getD "other"
                 severity := normalize_severity (d.severity.getD "medium")
                 message := d.message
                 timestamp := d.timestamp
                 resolved := d.resolved.getD false }]
            created := s.created + 1 }, none)

/-! ### The shared request loop and response shape -/

/-- The per-item loop common to the four sync endpoints: each item is
processed inside its own `try`; an error is appended to the errors list and
processing continues with the remaining items from the state the item left
behind. -/
def run_sync_loop {σ Item : Type} (process : σ → Item → σ × Option String) :
    σ → List Item → σ × List String
  | s, [] => (s, [])
  | s, i :: is =>
    match process s i with
    | (s2, none) => run_sync_loop process s2 is
    | (s2, some e) =>
      let rest := run_sync_loop process s2 is
      (rest.1, e :: rest.2)

/-- The response fields common to the sync endpoints that the claims are
about (location/partner echo fields and per-endpoint counters elided where
unused). -/
structure SyncResponse where
  status : String
  errors : List String
  message : Option String
deriving DecidableEq, Repr

/-- Response assembly shared by the sync endpoints: status `success`,
downgraded to `partial_success` when the errors list is non-empty. -/
def loop_response (errs : List String) : SyncResponse :=
  { status := if errs.isEmpty then "success" else "partial_success"
    errors := errs
    message := none }

/-- An endpoint body wrapped in the outer `try`: `pre` stands for the work
before the loop (JSON parsing); its failure yields the
`{'status': 'error'}` response with the state untouched. -/
def sync_endpoint {σ Item : Type} (process : σ → Item → σ × Option String)
    (s0 : σ) (pre : Except String (List Item)) : σ × SyncResponse :=
  match pre with
  | Except.error e => (s0, { status := "error", errors := [], message := some e })
  | Except.ok items =>
    let res := run_sync_loop process s0 items
    (res.1, loop_response res.2)

/-- The `sync_printers` endpoint body. -/
def sync_printers (locId : Nat) (s0 : PrintersSyncState)
    (pre : Except String (List PrinterPayload)) : PrintersSyncState × SyncResponse :=
  sync_endpoint (process_printer_item locId) s0 pre

/-- The `sync_readings` endpoint body. -/
def sync_readings (printers : List PrinterRec) (locId : Nat) (s0 : ReadingsSyncState)
    (pre : Except String (List ReadingPayload)) : ReadingsSyncState × SyncResponse :=
  sync_endpoint (process_reading_item printers locId) s0 pre

/-- The `sync_consumables` endpoint body. -/
def sync_consumables (printers : List PrinterRec) (locId : Nat)
    (s0 : ConsumablesSyncState) (pre : Except String (List ConsumablePayload)) :
    ConsumablesSyncState × SyncResponse :=
  sync_endpoint (process_consumable_item printers locId) s0 pre

/-- The `sync_alerts` endpoint body. -/
def sync_alerts (printers : List PrinterRec) (locId : Nat) (s0 : AlertsSyncState)
    (pre : Except String (List AlertPayload)) : AlertsSyncState × SyncResponse :=
  sync_endpoint (process_alert_item printers locId) s0 pre

/-! ## Concrete instances used to exercise the definitions -/

/-- A counter type for concrete runs. -/
def exCounterType : CounterType :=
  { id := 1, oid := "1.3.6.1.2.1.43.10.2.1.4.1.1", code := "total", name := "Total de Páginas" }

/-- A printer of partner 7 at location 3. -/
def exPrinter : Printer :=
  { id := 1, partner_id := 7, location_id := some 3, name := "P1" }

/-- A reading of printer 1 at time 10 with counter value 10. -/
def exReadingA : Reading :=
  { printer_id := 1, timestamp := 10
    counter_ids := [{ counter_type_id := 1, oid := "1.3.6.1.2.1.43.10.2.1.4.1.1",
                      counter_code := "total", value := 10 }] }

/-- A reading of printer 1 at time 20 with counter value 20. -/
def exReadingB : Reading :=
  { printer_id := 1, timestamp := 20
    counter_ids := [{ counter_type_id := 1, oid := "1.3.6.1.2.1.43.10.2.1.4.1.1",
                      counter_code := "total", value := 20 }] }

/-- A database with one printer and two readings, both inside the period
`[5, 30]`, and no reading before it. -/
def exEnv : Env :=
  { counter_types := [exCounterType], printers := [exPrinter]
    readings := [exReadingA, exReadingB] }

/-- A review line for printer P1 at location Central: 100 pages at price 1. -/
def exLineA : ReviewLine :=
  { printer_name := "P1", location_name := some "Central", include_in_invoice := true
    counter_line_ids := [{ counter_type_id := 1, counter_name := "Total de Páginas",
                           counter_start := 0, counter_end := 100, unit_price := 1 }] }

/-- A review line for printer P2, also at Central: 20 pages at price 2. -/
def exLineB : ReviewLine :=
  { printer_name := "P2", location_name := some "Central", include_in_invoice := true
    counter_line_ids := [{ counter_type_id := 1, counter_name := "Total de Páginas",
                           counter_start := 10, counter_end := 30, unit_price := 2 }] }

/-- A review line for printer P3 with no location: 10 pages at price 1. -/
def exLineC : ReviewLine :=
  { printer_name := "P3", location_name := none, include_in_invoice := true
    counter_line_ids := [{ counter_type_id := 1, counter_name := "Total de Páginas",
                           counter_start := 0, counter_end := 10, unit_price := 1 }] }

/-- A draft review of the three lines, grouping by location. -/
def exReviewC2 : Review :=
  { state := RState.draft, partner_id := 7, group_by_location := true
    line_ids := [exLineA, exLineB, exLineC], invoice_id := none }

/-- The invoice lines `action_generate_invoice` produces for `exReviewC2`. -/
def exInvoiceC2 : List InvoiceLine :=
  [{ heading := "Central", quantity := 1, price_unit := 140 },
   { heading := "Sin ubicación", quantity := 1, price_unit := 10 }]

/-- `exReviewC2` after invoicing. -/
def exReviewC2post : Review :=
  { exReviewC2 with state := RState.invoiced, invoice_id := some 1 }

/-- A fresh one-line review, used to walk the workflow. -/
def exReview0 : Review := new_review 7 true [exLineA]

/-- `exReview0` confirmed. -/
def exReview1 : Review := { exReview0 with state := RState.confirmed }

/-- `exReview1` invoiced a first time. -/
def exReview2 : Review := { exReview1 with state := RState.invoiced, invoice_id := some 1 }

/-- `exReview2` confirmed again. -/
def exReview3 : Review := { exReview2 with state := RState.confirmed }

/-- `exReview3` invoiced a second time. -/
def exReview4 : Review := { exReview3 with state := RState.invoiced, invoice_id := some 2 }

/-- The single invoice line generated from `exLineA`. -/
def exInvoice7 : List InvoiceLine :=
  [{ heading := "Central", quantity := 1, price_unit := 100 }]

/-- An active location with an active token. -/
def exLocation : PLocation :=
  { id := 3, name := "Oficina Central", access_token := "tok123"
    is_active := true, token_active := true }

/-- A configured price: partner 7 pays 1/2 per page for counter type 1. -/
def exPrice : PartnerCounterPrice :=
  { partner_id := 7, counter_type_id := 1, unit_price := 1/2 }

/-- A usage entry for counter type 1. -/
def exCounterUsage : CounterUsage :=
  { counter_type_id := 1, counter_start := 0, counter_end := 20, total_pages := 20 }

/-- A printer row at location 3 with IP 10.0.0.14. -/
def exPrinterRec : PrinterRec :=
  { id := 1, location_id := 3, ip_address := some "10.0.0.14"
    mac_address := none, serial_number := none }

/-- A printer payload with a fresh IP. -/
def exPrinterPayload : PrinterPayload :=
  { ip_address := some "10.0.0.20", mac_address := none, serial_number := none }

/-- A printer payload without an IP address. -/
def exNoIpPayload : PrinterPayload :=
  { ip_address := none, mac_address := none, serial_number := none }

/-- Initial printers-sync state holding `exPrinterRec`. -/
def exPrintersState : PrintersSyncState :=
  { printers := [exPrinterRec], next_id := 2, created := 0, updated := 0 }

/-- A reading payload for the known printer IP. -/
def exReadingPayload : ReadingPayload :=
  { printer_ip := some "10.0.0.14", timestamp := 100, status := some "online" }

/-- A reading payload whose IP matches no printer at the location. -/
def exStrayReadingPayload : ReadingPayload :=
  { printer_ip := some "10.9.9.9", timestamp := 100, status := none }

/-- Empty readings-sync state. -/
def exReadingsState : ReadingsSyncState :=
  { readings := [], created := 0, skipped := 0 }

/-! ## Helper lemmas -/

/-- In a list pairwise-ordered by `le`, every element is the last one or
`le`-below it. -/
theorem pairwise_getLast_le {α : Type} {le : α → α → Prop} :
    ∀ {l : List α} {a : α}, l.Pairwise le → l.getLast? = some a → ∀ x ∈ l, x = a ∨ le x a := by
  intro l
  induction l with
  | nil => intro a _ h; simp at h
  | cons b t ih =>
    intro a hp hl x hx
    cases t with
    | nil =>
      have hb : b = a := by simpa using hl
      have hxb : x = b := by simpa using hx
      exact Or.inl (hxb.trans hb)
    | cons c u =>
      rw [List.getLast?_cons_cons] at hl
      rcases List.mem_cons.mp hx with rfl | hx2
      · exact Or.inr ((List.pairwise_cons.mp hp).1 a (List.mem_of_getLast?_eq_some hl))
      · exact ih (List.pairwise_cons.mp hp).2 hl x hx2

/-- In a list pairwise-ordered by `le`, every element is the head or
`le`-above it. -/
theorem pairwise_head_le {α : Type} {le : α → α → Prop} {l : List α} {a : α}
    (hp : l.Pairwise le) (hh : l.head? = some a) : ∀ x ∈ l, x = a ∨ le a x := by
  cases l with
  | nil => simp at hh
  | cons b t =>
    have hb : b = a := by simpa using hh
    subst hb
    intro x hx
    rcases List.mem_cons.mp hx with rfl | hx2
    · exact Or.inl rfl
    · exact Or.inr ((List.pairwise_cons.mp hp).1 x hx2)

/-- `find?` returns the element when it is the unique one satisfying the
predicate. -/
theorem find?_eq_some_of_mem_unique {α : Type} {p : α → Bool} {l : List α} {a : α}
    (ha : a ∈ l) (hpa : p a = true) (huniq : ∀ b ∈ l, p b = true → b = a) :
    l.find? p = some a := by
  induction l with
  | nil => cases ha
  | cons b t ih =>
    rcases List.mem_cons.mp ha with rfl | ha2
    · rw [List.find?_cons_of_pos _ hpa]
    · by_cases hb : p b = true
      · have hba : b = a := huniq b (List.mem_cons_self b t) hb
        rw [List.find?_cons_of_pos _ hb, hba]
      · rw [List.find?_cons_of_neg _ (by simpa using hb)]
        exact ih ha2 (fun c hc hpc => huniq c (List.mem_cons_of_mem b hc) hpc)

/-- A mapped sum splits along a Boolean filter. -/
theorem sum_map_filter_split {α : Type} (f : α → Rat) (p : α → Bool) :
    ∀ l : List α,
      ((l.filter p).map f).sum + ((l.filter (fun x => !(p x))).map f).sum = (l.map f).sum := by
  intro l
  induction l with
  | nil => simp
  | cons a t ih =>
    by_cases h : p a = true
    · simp [List.filter_cons, h]
      linarith [ih]
    · have hfalse : p a = false := by simpa using h
      simp [List.filter_cons, hfalse]
      linarith [ih]

/-- A list of nonnegative integers with zero sum is all zeros. -/
theorem all_zero_of_sum_zero :
    ∀ {l : List Int}, (∀ x ∈ l, 0 ≤ x) → l.sum = 0 → ∀ x ∈ l, x = 0 := by
  intro l
  induction l with
  | nil => intro _ _ x hx; cases hx
  | cons a t ih =>
    intro hnn hsum x hx
    have hta : 0 ≤ a := hnn a (List.mem_cons_self a t)
    have htt : 0 ≤ t.sum := List.sum_nonneg (fun y hy => hnn y (List.mem_cons_of_mem a hy))
    have hsum2 : a + t.sum = 0 := by simpa using hsum
    rcases List.mem_cons.mp hx with rfl | hx2
    · omega
    · exact ih (fun y hy => hnn y (List.mem_cons_of_mem a hy)) (by omega) x hx2

/-- A review counter never bills negatively. -/
theorem review_counter_pages_nonneg (c : ReviewCounter) : 0 ≤ c.total_pages :=
  le_max_left 0 _

/-- A line whose page total vanishes has a zero estimated amount, whether or
not it is included. -/
theorem estimated_amount_of_pages_zero {l : ReviewLine} (h : l.total_pages = 0) :
    l.estimated_amount = 0 := by
  have hz : ∀ c ∈ l.counter_line_ids, c.total_pages = 0 := by
    intro c hc
    have := all_zero_of_sum_zero
      (l := l.counter_line_ids.map ReviewCounter.total_pages)
      (by intro x hx
          obtain ⟨c0, _, rfl⟩ := List.mem_map.mp hx
          exact review_counter_pages_nonneg c0) h
    exact this _ (List.mem_map_of_mem _ hc)
  have hs : (l.counter_line_ids.map ReviewCounter.subtotal).sum = 0 := by
    apply List.sum_eq_zero
    intro x hx
    obtain ⟨c0, hc0, rfl⟩ := List.mem_map.mp hx
    simp [ReviewCounter.subtotal, hz c0 hc0]
  unfold ReviewLine.estimated_amount
  split
  · exact hs
  · rfl

/-- Severities outside the translation dict normalize to `medium`. -/
theorem normalize_severity_default {s : String}
    (h : s ∉ ["info", "warning", "error", "critical", "low", "medium", "high"]) :
    normalize_severity s = "medium" := by
  simp only [List.mem_cons, List.not_mem_nil, or_false, not_or] at h
  obtain ⟨h1, h2, h3, h4, h5, h6, h7⟩ := h
  have b1 : (s == "info") = false := beq_eq_false_iff_ne.mpr h1
  have b2 : (s == "warning") = false := beq_eq_false_iff_ne.mpr h2
  have b3 : (s == "error") = false := beq_eq_false_iff_ne.mpr h3
  have b4 : (s == "critical") = false := beq_eq_false_iff_ne.mpr h4
  have b5 : (s == "low") = false := beq_eq_false_iff_ne.mpr h5
  have b6 : (s == "medium") = false := beq_eq_false_iff_ne.mpr h6
  have b7 : (s == "high") = false := beq_eq_false_iff_ne.mpr h7
  simp [normalize_severity, severity_map, List.lookup, b1, b2, b3, b4, b5, b6, b7]

/-- Claim C10: `normalize_severity` is total and always lands in the four
model severities: it maps `info` to `low`, `warning` to `medium`, `error` to
`high`, `critical` to `critical`, leaves `low`, `medium` and `high`
unchanged, and returns `medium` for every other input string. -/
theorem C10_normalize_severity_total :
    normalize_severity "info" = "low" ∧ normalize_severity "warning" = "medium" ∧
    normalize_severity "error" = "high" ∧ normalize_severity "critical" = "critical" ∧
    normalize_severity "low" = "low" ∧ normalize_severity "medium" = "medium" ∧
    normalize_severity "high" = "high" ∧
    (∀ s : String,
        s ∉ ["info", "warning", "error", "critical", "low", "medium", "high"] →
        normalize_severity s = "medium") ∧
    (∀ s : String,
        normalize_severity s = "low" ∨ normalize_severity s = "medium" ∨
        normalize_severity s = "high" ∨ normalize_severity s = "critical") := by
  refine ⟨rfl, rfl, rfl, rfl, rfl, rfl, rfl, fun s hs => normalize_severity_default hs, ?_⟩
  intro s
  by_cases h : s ∈ ["info", "warning", "error", "critical", "low", "medium", "high"]
  · simp only [List.mem_cons, List.not_mem_nil, or_false] at h
    rcases h with rfl | rfl | rfl | rfl | rfl | rfl | rfl <;> decide
  · rw [normalize_severity_default h]
    exact Or.inr (Or.inl rfl)

/-- Claim C10 witness: a severity string outside the dict normalizes to
`medium`. -/
theorem C10_normalize_severity_total_witness :
    "bogus" ∉ ["info", "warning", "error", "critical", "low", "medium", "high"] ∧
    normalize_severity "bogus" = "medium" :=
  ⟨by decide, (C10_normalize_severity_total.2.2.2.2.2.2.2.1) "bogus" (by decide)⟩

/-- Claim C4 counterexample: a request carrying an empty `X-Location-Token`
header value has a token that matches no active location, yet it is answered
with HTTP 401 (the decorator's Python truthiness test treats it like a
missing header), not with the HTTP 403 the claim requires for every
token that matches no active location. -/
theorem C4_counterexample_empty_token :
    validate_location_token (some "") [] =
      AuthResult.denied 401 "Location Token requerido" ∧ (401 : Nat) ≠ 403 :=
  ⟨rfl, by decide⟩

/-- Claim C4 (amended): a request with a falsy token header (absent or
empty) receives 401; a request with a non-empty token matching no active
location receives 403, as does one matching an active location whose token
is deactivated; only a non-empty token matching an active location with an
active token reaches the endpoint body. -/
theorem C4_token_auth (locations : List PLocation) (header_token : Option String)
    (huniq : ∀ L1 ∈ locations, ∀ L2 ∈ locations, L1.access_token = L2.access_token → L1 = L2) :
    (truthyStr header_token = false →
      validate_location_token header_token locations =
        AuthResult.denied 401 "Location Token requerido") ∧
    (∀ t : String, header_token = some t → t ≠ "" →
      ((∀ L ∈ locations, L.access_token = t → L.is_active = false) →
          validate_location_token header_token locations =
            AuthResult.denied 403 "Token inválido o inactivo") ∧
      (∀ L ∈ locations, L.access_token = t → L.is_active = true →
        (L.token_active = false →
            validate_location_token header_token locations =
              AuthResult.denied 403 "Token desactivado") ∧
        (L.token_active = true →
            validate_location_token header_token locations = AuthResult.granted L))) := by
  constructor
  · intro h
    simp [validate_location_token, h]
  · rintro t rfl tne
    have htr : truthyStr (some t) = true := by simp [truthyStr, tne]
    constructor
    · intro hnone
      have hfind : locations.find? (fun L => L.access_token == t && L.is_active) = none := by
        apply List.find?_eq_none.mpr
        intro L hL hcontra
        simp only [Bool.and_eq_true, beq_iff_eq] at hcontra
        have := hnone L hL hcontra.1
        rw [this] at hcontra
        exact Bool.false_ne_true hcontra.2
      simp [validate_location_token, htr, hfind]
    · intro L hL hacc hact
      have hfind : locations.find? (fun L2 => L2.access_token == t && L2.is_active) = some L := by
        apply find?_eq_some_of_mem_unique hL
        · simp [hacc, hact]
        · intro b hb hpb
          simp only [Bool.and_eq_true, beq_iff_eq] at hpb
          exact huniq b hb L hL (hpb.1.trans hacc.symm)
      constructor
      · intro hta
        simp [validate_location_token, htr, hfind, hta]
      · intro hta
        simp [validate_location_token, htr, hfind, hta]

/-- Claim C4 witness: the active location's own token reaches the endpoint
body. -/
theorem C4_token_auth_witness :
    validate_location_token (some "tok123") [exLocation] = AuthResult.granted exLocation := by
  have h := C4_token_auth [exLocation] (some "tok123") ?hu
  case hu =>
    intro L1 h1 L2 h2 _
    have e1 : L1 = exLocation := by simpa using h1
    have e2 : L2 = exLocation := by simpa using h2
    rw [e1, e2]
  exact ((h.2 "tok123" rfl (by decide)).2 exLocation (List.mem_singleton.mpr rfl) rfl rfl).2 rfl

/-- Claim C9: `get_price_for_partner_counter` returns the configured price
when a record for the (partner, counter type) pair exists and 0.0 when none
does; a counter the billing wizard creates for an unpriced pair gets unit
price 0, a zero subtotal, and contributes nothing to the line's estimated
amount. -/
theorem C9_partner_price_default (prices : List PartnerCounterPrice) (pid ctid : Nat)
    (huniq : ∀ p1 ∈ prices, ∀ p2 ∈ prices,
      p1.partner_id = p2.partner_id → p1.counter_type_id = p2.counter_type_id → p1 = p2) :
    (∀ rec ∈ prices, rec.partner_id = pid → rec.counter_type_id = ctid →
        get_price_for_partner_counter prices pid ctid = rec.unit_price) ∧
    ((∀ rec ∈ prices, ¬(rec.partner_id = pid ∧ rec.counter_type_id = ctid)) →
        get_price_for_partner_counter prices pid ctid = 0) ∧
    (∀ (name : String) (cd : CounterUsage), cd.counter_type_id = ctid →
        (∀ rec ∈ prices, ¬(rec.partner_id = pid ∧ rec.counter_type_id = ctid)) →
        (wizard_create_counter prices pid name cd).unit_price = 0 ∧
        (wizard_create_counter prices pid name cd).subtotal = 0 ∧
        (∀ (pname : String) (lname : Option String) (incl : Bool)
            (pre post : List ReviewCounter),
          ReviewLine.estimated_amount
              ⟨pname, lname, incl, pre ++ wizard_create_counter prices pid name cd :: post⟩ =
            ReviewLine.estimated_amount ⟨pname, lname, incl, pre ++ post⟩)) := by
  have hnone : (∀ rec ∈ prices, ¬(rec.partner_id = pid ∧ rec.counter_type_id = ctid)) →
      get_price_for_partner_counter prices pid ctid = 0 := by
    intro habs
    have hfind : prices.find?
        (fun p => p.partner_id == pid && p.counter_type_id == ctid) = none := by
      apply List.find?_eq_none.mpr
      intro p hp hcontra
      simp only [Bool.and_eq_true, beq_iff_eq] at hcontra
      exact habs p hp hcontra
    simp [get_price_for_partner_counter, hfind]
  refine ⟨?_, hnone, ?_⟩
  · intro rec hrec hp hc
    have hfind : prices.find?
        (fun p => p.partner_id == pid && p.counter_type_id == ctid) = some rec := by
      apply find?_eq_some_of_mem_unique hrec
      · simp [hp, hc]
      · intro b hb hpb
        simp only [Bool.and_eq_true, beq_iff_eq] at hpb
        exact huniq b hb rec hrec (hpb.1.trans hp.symm) (hpb.2.trans hc.symm)
    simp [get_price_for_partner_counter, hfind]
  · intro name cd hcd habs
    have hup : (wizard_create_counter prices pid name cd).unit_price = 0 := by
      simp only [wizard_create_counter, hcd]
      exact hnone habs
    have hsub : (wizard_create_counter prices pid name cd).subtotal = 0 := by
      simp [ReviewCounter.subtotal, hup]
    refine ⟨hup, hsub, ?_⟩
    intro pname lname incl pre post
    simp [ReviewLine.estimated_amount, hsub]

/-- Claim C9 witness: partner 8 has no configured price for counter type 1,
so the price falls back to 0. -/
theorem C9_partner_price_default_witness :
    get_price_for_partner_counter [exPrice] 8 1 = 0 := by
  have h := C9_partner_price_default [exPrice] 8 1 ?hu
  case hu =>
    intro p1 h1 p2 h2 _ _
    have e1 : p1 = exPrice := by simpa using h1
    have e2 : p2 = exPrice := by simpa using h2
    rw [e1, e2]
  apply h.2.1
  intro rec hrec hcontra
  have e : rec = exPrice := by simpa using hrec
  subst e
  simp [exPrice] at hcontra

/-! ## Lemmas on the by-location grouping -/

/-- Adding an amount to one entry leaves the key list unchanged. -/
theorem update_keys (acc : List (String × Rat)) (k0 : String) (amt : Rat) :
    (acc.map (fun p => if p.1 == k0 then (p.1, p.2 + amt) else p)).map Prod.fst =
      acc.map Prod.fst := by
  rw [List.map_map]
  apply List.map_congr_left
  intro p _
  by_cases hp : p.1 = k0 <;> simp [hp]

/-- The keys of the accumulated dict are the starting keys plus the location
keys of the processed lines. -/
theorem group_lines_aux_keys :
    ∀ (ls : List ReviewLine) (acc : List (String × Rat)) (k : String),
      k ∈ (group_lines_aux acc ls).map Prod.fst ↔
        (k ∈ acc.map Prod.fst ∨ k ∈ ls.map review_location_key) := by
  intro ls
  induction ls with
  | nil => intro acc k; simp [group_lines_aux]
  | cons l ls ih =>
    intro acc k
    by_cases h : acc.any (fun p => p.1 == review_location_key l) = true
    · have hmem : review_location_key l ∈ acc.map Prod.fst := by
        obtain ⟨p, hp, hpk⟩ := List.any_eq_true.mp h
        exact List.mem_map.mpr ⟨p, hp, by simpa using hpk⟩
      simp only [group_lines_aux, h, if_true]
      rw [ih, update_keys]
      simp only [List.map_cons, List.mem_cons]
      constructor
      · rintro (ha | hl)
        · exact Or.inl ha
        · exact Or.inr (Or.inr hl)
      · rintro (ha | rfl | hl)
        · exact Or.inl ha
        · exact Or.inl hmem
        · exact Or.inr hl
    · simp only [group_lines_aux, h, if_false, Bool.false_eq_true]
      rw [ih]
      simp only [List.map_append, List.map_cons, List.mem_append, List.mem_cons]
      simp only [List.map_nil, List.mem_singleton]
      tauto

/-- The by-location grouping never duplicates a key. -/
theorem group_lines_aux_nodup :
    ∀ (ls : List ReviewLine) (acc : List (String × Rat)),
      (acc.map Prod.fst).Nodup → ((group_lines_aux acc ls).map Prod.fst).Nodup := by
  intro ls
  induction ls with
  | nil => intro acc h; simpa [group_lines_aux] using h
  | cons l ls ih =>
    intro acc hacc
    by_cases h : acc.any (fun p => p.1 == review_location_key l) = true
    · simp only [group_lines_aux, h, if_true]
      apply ih
      rw [update_keys]
      exact hacc
    · simp only [group_lines_aux, h, if_false, Bool.false_eq_true]
      apply ih
      rw [List.map_append]
      rw [List.nodup_append]
      refine ⟨hacc, by simp, ?_⟩
      intro x hx hx2
      have hxk : x = review_location_key l := by simpa using hx2
      subst hxk
      obtain ⟨p, hp, hpk⟩ := List.mem_map.mp hx
      have : acc.any (fun q => q.1 == review_location_key l) = true :=
        List.any_eq_true.mpr ⟨p, hp, by simp [hpk]⟩
      exact h this

/-- Updating the entry of a present key adds the amount to the value stored
at that key and nothing else. -/
theorem update_value (k0 k : String) (amt : Rat) :
    ∀ acc : List (String × Rat), (acc.map Prod.fst).Nodup →
      acc.any (fun p => p.1 == k0) = true →
      (((acc.map (fun p => if p.1 == k0 then (p.1, p.2 + amt) else p)).filter
          (fun p => p.1 == k)).map Prod.snd).sum =
        ((acc.filter (fun p => p.1 == k)).map Prod.snd).sum + (if k0 = k then amt else 0) := by
  intro acc
  induction acc with
  | nil => intro _ h; simp at h
  | cons p rest ih =>
    intro hnd hany
    rw [List.map_cons] at hnd
    have hnd2 := List.nodup_cons.mp hnd
    have hndr : (rest.map Prod.fst).Nodup := hnd2.2
    have hpnot : p.1 ∉ rest.map Prod.fst := hnd2.1
    by_cases hp : p.1 = k0
    · subst hp
      have hrest : rest.map (fun q => if q.1 == p.1 then (q.1, q.2 + amt) else q) = rest := by
        have h0 : ∀ q ∈ rest, (if q.1 == p.1 then (q.1, q.2 + amt) else q) = id q := by
          intro q hq
          have hq1 : (q.1 == p.1) = false := by
            apply beq_eq_false_iff_ne.mpr
            intro hcontra
            exact hpnot (List.mem_map.mpr ⟨q, hq, hcontra⟩)
          simp [hq1]
        rw [List.map_congr_left h0, List.map_id]
      rw [List.map_cons, hrest]
      by_cases hk : p.1 = k
      · subst hk
        simp [List.filter_cons]
        ring
      · simp [List.filter_cons, hk]
    · have hpf : (p.1 == k0) = false := beq_eq_false_iff_ne.mpr hp
      have hany2 : rest.any (fun q => q.1 == k0) = true := by
        simp only [List.any_cons, hpf, Bool.false_or] at hany
        exact hany
      have ihr := ih hndr hany2
      rw [List.map_cons]
      simp only [hpf, Bool.false_eq_true, if_false]
      by_cases hk : p.1 = k
      · subst hk
        simp [List.filter_cons] at ihr ⊢
        linarith [ihr]
      · have hkf : (p.1 == k) = false := beq_eq_false_iff_ne.mpr hk
        simp [List.filter_cons, hkf] at ihr ⊢
        linarith [ihr]

/-- Updating the entry of a present key adds the amount to the total of the
stored values. -/
theorem update_sum (k0 : String) (amt : Rat) :
    ∀ acc : List (String × Rat), (acc.map Prod.fst).Nodup →
      acc.any (fun p => p.1 == k0) = true →
      ((acc.map (fun p => if p.1 == k0 then (p.1, p.2 + amt) else p)).map Prod.snd).sum =
        (acc.map Prod.snd).sum + amt := by
  intro acc
  induction acc with
  | nil => intro _ h; simp at h
  | cons p rest ih =>
    intro hnd hany
    rw [List.map_cons] at hnd
    have hnd2 := List.nodup_cons.mp hnd
    by_cases hp : p.1 = k0
    · subst hp
      have hrest : rest.map (fun q => if q.1 == p.1 then (q.1, q.2 + amt) else q) = rest := by
        have h0 : ∀ q ∈ rest, (if q.1 == p.1 then (q.1, q.2 + amt) else q) = id q := by
          intro q hq
          have hq1 : (q.1 == p.1) = false := by
            apply beq_eq_false_iff_ne.mpr
            intro hcontra
            exact hnd2.1 (List.mem_map.mpr ⟨q, hq, hcontra⟩)
          simp [hq1]
        rw [List.map_congr_left h0, List.map_id]
      rw [List.map_cons, hrest]
      simp
      ring
    · have hpf : (p.1 == k0) = false := beq_eq_false_iff_ne.mpr hp
      have hany2 : rest.any (fun q => q.1 == k0) = true := by
        simp only [List.any_cons, hpf, Bool.false_or] at hany
        exact hany
      rw [List.map_cons]
      simp only [hpf, Bool.false_eq_true, if_false, List.map_cons, List.sum_cons]
      rw [ih hnd2.2 hany2]
      ring

/-- The amount stored for a key is the summed estimated amount of the
processed lines with that location key. -/
theorem group_lines_aux_value (k : String) :
    ∀ (ls : List ReviewLine) (acc : List (String × Rat)), (acc.map Prod.fst).Nodup →
      (((group_lines_aux acc ls).filter (fun p => p.1 == k)).map Prod.snd).sum =
        ((acc.filter (fun p => p.1 == k)).map Prod.snd).sum +
          ((ls.filter (fun l => review_location_key l == k)).map
            ReviewLine.estimated_amount).sum := by
  intro ls
  induction ls with
  | nil => intro acc _; simp [group_lines_aux]
  | cons l ls ih =>
    intro acc hacc
    by_cases h : acc.any (fun p => p.1 == review_location_key l) = true
    · simp only [group_lines_aux, h, if_true]
      have hnd2 : ((acc.map (fun p =>
          if p.1 == review_location_key l then (p.1, p.2 + l.estimated_amount) else p)).map
            Prod.fst).Nodup := by
        rw [update_keys]; exact hacc
      rw [ih _ hnd2, update_value (review_location_key l) k l.estimated_amount acc hacc h]
      rw [List.filter_cons]
      by_cases hlk : review_location_key l = k
      · have hlkb : (review_location_key l == k) = true := by simpa using hlk
        simp only [hlkb, if_true, if_pos hlk, List.map_cons, List.sum_cons]
        ring
      · have hlkb : (review_location_key l == k) = false := beq_eq_false_iff_ne.mpr hlk
        simp only [hlkb, Bool.false_eq_true, if_false, if_neg hlk]
        ring
    · simp only [group_lines_aux, h, if_false, Bool.false_eq_true]
      have hnotin : review_location_key l ∉ acc.map Prod.fst := by
        intro hcontra
        obtain ⟨p, hp, hpk⟩ := List.mem_map.mp hcontra
        exact h (List.any_eq_true.mpr ⟨p, hp, by simp [hpk]⟩)
      have hnd2 : (((acc ++ [(review_location_key l, l.estimated_amount)]).map
          Prod.fst).Nodup) := by
        rw [List.map_append, List.nodup_append]
        exact ⟨hacc, by simp, by
          intro x hx hx2
          have hxk : x = review_location_key l := by simpa using hx2
          subst hxk
          exact hnotin hx⟩
      rw [ih _ hnd2, List.filter_append, List.map_append, List.sum_append]
      rw [List.filter_cons]
      by_cases hlk : review_location_key l = k
      · have hlkb : (review_location_key l == k) = true := by simpa using hlk
        simp only [hlkb, if_true, List.filter_cons, List.filter_nil, List.map_cons,
          List.map_nil, List.sum_cons, List.sum_nil]
        ring
      · have hlkb : (review_location_key l == k) = false := beq_eq_false_iff_ne.mpr hlk
        simp only [hlkb, Bool.false_eq_true, if_false, List.filter_cons, List.filter_nil,
          List.map_nil, List.sum_nil]
        ring

/-- The grouped amounts sum to the total of the processed lines. -/
theorem group_lines_aux_sum :
    ∀ (ls : List ReviewLine) (acc : List (String × Rat)), (acc.map Prod.fst).Nodup →
      ((group_lines_aux acc ls).map Prod.snd).sum =
        (acc.map Prod.snd).sum + (ls.map ReviewLine.estimated_amount).sum := by
  intro ls
  induction ls with
  | nil => intro acc _; simp [group_lines_aux]
  | cons l ls ih =>
    intro acc hacc
    by_cases h : acc.any (fun p => p.1 == review_location_key l) = true
    · simp only [group_lines_aux, h, if_true]
      have hnd2 : ((acc.map (fun p =>
          if p.1 == review_location_key l then (p.1, p.2 + l.estimated_amount) else p)).map
            Prod.fst).Nodup := by
        rw [update_keys]; exact hacc
      rw [ih _ hnd2, update_sum (review_location_key l) l.estimated_amount acc hacc h]
      simp only [List.map_cons, List.sum_cons]
      ring
    · simp only [group_lines_aux, h, if_false, Bool.false_eq_true]
      have hnotin : review_location_key l ∉ acc.map Prod.fst := by
        intro hcontra
        obtain ⟨p, hp, hpk⟩ := List.mem_map.mp hcontra
        exact h (List.any_eq_true.mpr ⟨p, hp, by simp [hpk]⟩)
      have hnd2 : (((acc ++ [(review_location_key l, l.estimated_amount)]).map
          Prod.fst).Nodup) := by
        rw [List.map_append, List.nodup_append]
        exact ⟨hacc, by simp, by
          intro x hx hx2
          have hxk : x = review_location_key l := by simpa using hx2
          subst hxk
          exact hnotin hx⟩
      rw [ih _ hnd2]
      simp only [List.map_append, List.sum_append, List.map_cons, List.sum_cons,
        List.map_nil, List.sum_nil]
      ring

/-- With distinct keys, the filtered sum at a stored key is its value. -/
theorem value_of_mem_nodup :
    ∀ (lst : List (String × Rat)) (k : String) (v : Rat),
      (lst.map Prod.fst).Nodup → (k, v) ∈ lst →
      ((lst.filter (fun p => p.1 == k)).map Prod.snd).sum = v := by
  intro lst
  induction lst with
  | nil => intro k v _ h; cases h
  | cons p rest ih =>
    intro k v hnd hmem
    rw [List.map_cons] at hnd
    have hnd2 := List.nodup_cons.mp hnd
    rcases List.mem_cons.mp hmem with rfl | hmem2
    · have hrest : rest.filter (fun q => q.1 == k) = [] := by
        rw [List.filter_eq_nil_iff]
        intro q hq hcontra
        exact hnd2.1 (List.mem_map.mpr ⟨q, hq, by simpa using hcontra⟩)
      simp [List.filter_cons, hrest]
    · have hne : (p.1 == k) = false := by
        apply beq_eq_false_iff_ne.mpr
        intro hcontra
        apply hnd2.1
        rw [hcontra]
        exact List.mem_map.mpr ⟨(k, v), hmem2, rfl⟩
      simp only [List.filter_cons, hne, Bool.false_eq_true, if_false]
      exact ih k v hnd2.2 hmem2

/-- A review line's page total is never negative. -/
theorem line_pages_nonneg (l : ReviewLine) : 0 ≤ l.total_pages :=
  List.sum_nonneg (by
    intro x hx
    obtain ⟨c, _, rfl⟩ := List.mem_map.mp hx
    exact review_counter_pages_nonneg c)

/-- Billable lines carry the whole estimated total: included lines with
nonpositive page totals contribute nothing. -/
theorem lines_to_bill_sum (r : Review) :
    ((lines_to_bill r).map ReviewLine.estimated_amount).sum = r.total_amount := by
  unfold lines_to_bill Review.total_amount
  have hsplit := sum_map_filter_split ReviewLine.estimated_amount
    (fun l => decide (0 < l.total_pages)) (r.line_ids.filter (fun l => l.include_in_invoice))
  have hzero : (((r.line_ids.filter (fun l => l.include_in_invoice)).filter
      (fun l => !(decide (0 < l.total_pages)))).map ReviewLine.estimated_amount).sum = 0 := by
    apply List.sum_eq_zero
    intro x hx
    obtain ⟨l, hl, rfl⟩ := List.mem_map.mp hx
    have hl2 := List.mem_filter.mp hl
    have hnp : ¬(0 < l.total_pages) := by simpa using hl2.2
    exact estimated_amount_of_pages_zero (le_antisymm (by omega) (line_pages_nonneg l))
  have hcomb : r.line_ids.filter (fun l => l.include_in_invoice && decide (0 < l.total_pages)) =
      (r.line_ids.filter (fun l => l.include_in_invoice)).filter
        (fun l => decide (0 < l.total_pages)) := by
    rw [List.filter_filter]
    apply List.filter_congr
    intro l _
    exact Bool.and_comm _ _
  rw [hcomb]
  rw [← hsplit, hzero]
  ring

/-- Claim C2: with `group_by_location` enabled, a successful
`action_generate_invoice` creates exactly one invoice line per distinct
location name among the billable lines (included and with positive pages),
each with quantity 1 and unit price the sum of its location's estimated
amounts, and the unit prices sum to the review's `total_amount`. -/
theorem C2_grouped_invoice (r : Review) (invId : Nat) (inv : List InvoiceLine) (r2 : Review)
    (hgrp : r.group_by_location = true)
    (hok : action_generate_invoice r invId = Except.ok (inv, r2)) :
    (inv.map InvoiceLine.heading).Nodup ∧
    (∀ k : String, k ∈ inv.map InvoiceLine.heading ↔
        k ∈ (lines_to_bill r).map review_location_key) ∧
    (∀ il ∈ inv, il.quantity = 1 ∧
        il.price_unit = (((lines_to_bill r).filter
            (fun l => review_location_key l == il.heading)).map
              ReviewLine.estimated_amount).sum) ∧
    (inv.map InvoiceLine.price_unit).sum = r.total_amount := by
  have hinv : inv = (group_lines_by_location (lines_to_bill r)).map
      (fun p => { heading := p.1, quantity := 1, price_unit := p.2 }) := by
    unfold action_generate_invoice at hok
    by_cases h1 : r.state = RState.invoiced
    · rw [if_pos h1] at hok; cases hok
    · rw [if_neg h1] at hok
      by_cases h2 : (lines_to_bill r).isEmpty = true
      · rw [if_pos h2] at hok; cases hok
      · rw [if_neg h2] at hok
        simp only [hgrp, if_true] at hok
        exact ((Prod.mk.injEq _ _ _ _).mp ((Except.ok.injEq _ _).mp hok)).1.symm
  have hGnodup : ((group_lines_by_location (lines_to_bill r)).map Prod.fst).Nodup :=
    group_lines_aux_nodup (lines_to_bill r) [] (by simp)
  have hheads : inv.map InvoiceLine.heading =
      (group_lines_by_location (lines_to_bill r)).map Prod.fst := by
    rw [hinv, List.map_map]
    apply List.map_congr_left
    intro p _
    rfl
  refine ⟨?_, ?_, ?_, ?_⟩
  · rw [hheads]; exact hGnodup
  · intro k
    rw [hheads]
    unfold group_lines_by_location
    rw [group_lines_aux_keys (lines_to_bill r) [] k]
    simp
  · intro il hil
    rw [hinv] at hil
    obtain ⟨p, hp, rfl⟩ := List.mem_map.mp hil
    refine ⟨rfl, ?_⟩
    have hval := value_of_mem_nodup (group_lines_by_location (lines_to_bill r)) p.1 p.2
      hGnodup (by simpa using hp)
    have haux := group_lines_aux_value p.1 (lines_to_bill r) [] (by simp)
    unfold group_lines_by_location at hval haux
    rw [hval] at haux
    simpa using haux
  · have hsum := group_lines_aux_sum (lines_to_bill r) [] (by simp)
    unfold group_lines_by_location at *
    rw [hinv, List.map_map]
    have hmm : (InvoiceLine.price_unit ∘ fun p : String × Rat =>
        ({ heading := p.1, quantity := 1, price_unit := p.2 } : InvoiceLine)) =
          (Prod.snd : String × Rat → Rat) := by
      funext p
      rfl
    rw [hmm, hsum]
    simp [lines_to_bill_sum r]

/-- Evaluating `action_generate_invoice` on the three-line example review. -/
theorem gen_exReviewC2 :
    action_generate_invoice exReviewC2 1 = Except.ok (exInvoiceC2, exReviewC2post) := by
  norm_num [action_generate_invoice, lines_to_bill, exReviewC2, exLineA, exLineB, exLineC,
    ReviewLine.total_pages, ReviewCounter.total_pages, group_lines_by_location,
    group_lines_aux, review_location_key, orDefault, ReviewLine.estimated_amount,
    ReviewCounter.subtotal, exInvoiceC2, exReviewC2post]
  simp

/-- Claim C2 witness: on the example review the two Central lines merge into
one invoice line and the unit prices sum to the review total. -/
theorem C2_grouped_invoice_witness :
    exReviewC2.group_by_location = true ∧
    action_generate_invoice exReviewC2 1 = Except.ok (exInvoiceC2, exReviewC2post) ∧
    (exInvoiceC2.map InvoiceLine.price_unit).sum = exReviewC2.total_amount :=
  ⟨rfl, gen_exReviewC2,
    (C2_grouped_invoice exReviewC2 1 exInvoiceC2 exReviewC2post rfl gen_exReviewC2).2.2.2⟩

/-- Confirming the fresh example review succeeds. -/
theorem conf_exReview0 : action_confirm exReview0 = Except.ok exReview1 := rfl

/-- Generating the first invoice from the confirmed example review. -/
theorem gen_exReview1 :
    action_generate_invoice exReview1 1 = Except.ok (exInvoice7, exReview2) := by
  norm_num [action_generate_invoice, lines_to_bill, exReview1, exReview0, new_review, exLineA,
    ReviewLine.total_pages, ReviewCounter.total_pages, group_lines_by_location,
    group_lines_aux, review_location_key, orDefault, ReviewLine.estimated_amount,
    ReviewCounter.subtotal, exInvoice7, exReview2]
  simp

/-- `action_confirm` also succeeds on the already invoiced review: it has no
state guard. -/
theorem conf_exReview2 : action_confirm exReview2 = Except.ok exReview3 := rfl

/-- Generating a second invoice from the re-confirmed review succeeds. -/
theorem gen_exReview3 :
    action_generate_invoice exReview3 2 = Except.ok (exInvoice7, exReview4) := by
  norm_num [action_generate_invoice, lines_to_bill, exReview3, exReview2, exReview1, exReview0,
    new_review, exLineA, ReviewLine.total_pages, ReviewCounter.total_pages,
    group_lines_by_location, group_lines_aux, review_location_key, orDefault,
    ReviewLine.estimated_amount, ReviewCounter.subtotal, exInvoice7, exReview4]
  simp

/-- The invoiced example review is reachable from a fresh review. -/
theorem exReview2_reachable : ReviewReachable exReview2 :=
  ReviewReachable.step
    (ReviewReachable.step (ReviewReachable.init 7 true [exLineA])
      (ReviewStep.confirm conf_exReview0))
    (ReviewStep.generate 1 exInvoice7 gen_exReview1)

/-- Claim C7 counterexample: a reachable review in state `invoiced` with
invoice 1 attached is re-confirmed by `action_confirm` (which has no state
guard), after which `action_generate_invoice` succeeds a second time and
attaches invoice 2 — so an invoiced review's terminal state can be undone
and the review can be invoiced more than once. -/
theorem C7_counterexample_double_invoice :
    exReview2.state = RState.invoiced ∧ exReview2.invoice_id = some 1 ∧
    ReviewReachable exReview2 ∧
    action_confirm exReview2 = Except.ok exReview3 ∧
    action_generate_invoice exReview3 2 = Except.ok (exInvoice7, exReview4) ∧
    exReview4.state = RState.invoiced ∧ exReview4.invoice_id = some 2 ∧
    ReviewReachable exReview4 :=
  ⟨rfl, rfl, exReview2_reachable, conf_exReview2, gen_exReview3, rfl, rfl,
    ReviewReachable.step
      (ReviewReachable.step exReview2_reachable (ReviewStep.confirm conf_exReview2))
      (ReviewStep.generate 2 exInvoice7 gen_exReview3)⟩

/-- Claim C7 (amended): on every reachable review, once the state is
`invoiced`, `action_generate_invoice` and `action_cancel` raise, and
`action_set_to_draft` raises whenever an invoice is attached; however
`action_confirm` carries no state guard, so an invoiced review can be reset
to `confirmed` and invoiced again (keeping only the last invoice attached). -/
theorem C7_invoiced_guards (r : Review) (hreach : ReviewReachable r) :
    (r.state = RState.invoiced →
      (∀ inv : Nat, action_generate_invoice r inv =
          Except.error "Esta revisión ya tiene una factura generada") ∧
      action_cancel r =
        Except.error "No se puede cancelar una revisión que ya tiene factura generada") ∧
    (r.invoice_id.isSome = true →
      action_set_to_draft r =
        Except.error "No se puede volver a borrador una revisión con factura") := by
  refine ⟨fun hs => ⟨fun inv => ?_, ?_⟩, fun hi => ?_⟩
  · unfold action_generate_invoice
    rw [if_pos hs]
  · unfold action_cancel
    rw [if_pos hs]
  · unfold action_set_to_draft
    rw [if_pos hi]

/-- Claim C7 witness: the reachable invoiced example review refuses
`action_cancel` and `action_set_to_draft`. -/
theorem C7_invoiced_guards_witness :
    action_cancel exReview2 =
      Except.error "No se puede cancelar una revisión que ya tiene factura generada" ∧
    action_set_to_draft exReview2 =
      Except.error "No se puede volver a borrador una revisión con factura" :=
  ⟨((C7_invoiced_guards exReview2 exReview2_reachable).1 rfl).2,
    (C7_invoiced_guards exReview2 exReview2_reachable).2 rfl⟩

/-! ## Lemmas on the usage calculation -/

/-- Membership in the period search. -/
theorem mem_readings_in_period {env : Env} {pid dateFrom dateToEnd : Nat} {r : Reading} :
    r ∈ readings_in_period env pid dateFrom dateToEnd ↔
      (r ∈ env.readings ∧ r.printer_id = pid ∧ dateFrom ≤ r.timestamp ∧
        r.timestamp ≤ dateToEnd) := by
  unfold readings_in_period
  rw [List.mem_insertionSort, List.mem_filter]
  simp [and_assoc]

/-- The period search comes back sorted by ascending timestamp. -/
theorem sorted_readings_in_period (env : Env) (pid dateFrom dateToEnd : Nat) :
    (readings_in_period env pid dateFrom dateToEnd).Pairwise readingLe :=
  List.sorted_insertionSort readingLe _

/-- The previous-reading search is empty exactly when the printer has no
reading before the period. -/
theorem previous_reading_none {env : Env} {pid dateFrom : Nat} :
    previous_reading env pid dateFrom = none ↔
      ∀ r ∈ env.readings, r.printer_id = pid → ¬(r.timestamp < dateFrom) := by
  unfold previous_reading
  rw [List.head?_eq_none_iff]
  constructor
  · intro h r hr hpid hlt
    have hmem : r ∈ List.insertionSort readingGe
        (env.readings.filter
          (fun r => r.printer_id == pid && decide (r.timestamp < dateFrom))) :=
      (List.mem_insertionSort _).mpr (List.mem_filter.mpr ⟨hr, by simp [hpid, hlt]⟩)
    rw [h] at hmem
    cases hmem
  · intro h
    rw [List.eq_nil_iff_forall_not_mem]
    intro r hrmem
    have h2 := List.mem_filter.mp ((List.mem_insertionSort _).mp hrmem)
    have h3 : r.printer_id = pid ∧ r.timestamp < dateFrom := by simpa using h2.2
    exact h r h2.1 h3.1 h3.2

/-- When the previous-reading search succeeds, it returns a reading of the
printer strictly before the period that is latest among those. -/
theorem previous_reading_some {env : Env} {pid dateFrom : Nat} {prev : Reading}
    (h : previous_reading env pid dateFrom = some prev) :
    prev ∈ env.readings ∧ prev.printer_id = pid ∧ prev.timestamp < dateFrom ∧
      ∀ r ∈ env.readings, r.printer_id = pid → r.timestamp < dateFrom →
        r.timestamp ≤ prev.timestamp := by
  unfold previous_reading at h
  have hsorted : (List.insertionSort readingGe
      (env.readings.filter
        (fun r => r.printer_id == pid && decide (r.timestamp < dateFrom)))).Pairwise
          readingGe :=
    List.sorted_insertionSort readingGe _
  have hmax := pairwise_head_le hsorted h
  have hmem : prev ∈ List.insertionSort readingGe
      (env.readings.filter
        (fun r => r.printer_id == pid && decide (r.timestamp < dateFrom))) :=
    List.mem_of_mem_head? (by rw [h]; rfl)
  have h2 := List.mem_filter.mp ((List.mem_insertionSort _).mp hmem)
  have h3 : prev.printer_id = pid ∧ prev.timestamp < dateFrom := by simpa using h2.2
  refine ⟨h2.1, h3.1, h3.2, ?_⟩
  intro r hr hpid hlt
  have hrmem : r ∈ List.insertionSort readingGe
      (env.readings.filter
        (fun r => r.printer_id == pid && decide (r.timestamp < dateFrom))) :=
    (List.mem_insertionSort _).mpr (List.mem_filter.mpr ⟨hr, by simp [hpid, hlt]⟩)
  rcases hmax r hrmem with rfl | hge
  · exact Nat.le_refl _
  · exact hge

/-- Unfolding membership in `calculate_usage_by_printer`. -/
theorem mem_usage_result {env : Env} {partnerId dateFrom dateToEnd : Nat} {u : PrinterUsage} :
    u ∈ calculate_usage_by_printer env partnerId dateFrom dateToEnd ↔
      ∃ p, p ∈ env.printers ∧ p.partner_id = partnerId ∧
        readings_in_period env p.id dateFrom dateToEnd ≠ [] ∧
        calc_counters env p.id dateFrom (readings_in_period env p.id dateFrom dateToEnd) ≠ [] ∧
        u = { printer_id := p.id, printer_name := p.name
              counters :=
                calc_counters env p.id dateFrom
                  (readings_in_period env p.id dateFrom dateToEnd) } := by
  unfold calculate_usage_by_printer
  rw [List.mem_filterMap]
  constructor
  · rintro ⟨p, hp, hfp⟩
    have hpf := List.mem_filter.mp hp
    simp only at hfp
    by_cases h1 : (readings_in_period env p.id dateFrom dateToEnd).isEmpty = true
    · rw [if_pos h1] at hfp; cases hfp
    · rw [if_neg h1] at hfp
      by_cases h2 : (calc_counters env p.id dateFrom
          (readings_in_period env p.id dateFrom dateToEnd)).isEmpty = true
      · rw [if_pos h2] at hfp; cases hfp
      · rw [if_neg h2] at hfp
        refine ⟨p, hpf.1, by simpa using hpf.2, ?_, ?_, (Option.some.inj hfp).symm⟩
        · intro hcontra
          exact h1 (by simp [hcontra])
        · intro hcontra
          exact h2 (by simp [hcontra])
  · rintro ⟨p, hp1, hp2, hne1, hne2, rfl⟩
    refine ⟨p, List.mem_filter.mpr ⟨hp1, by simp [hp2]⟩, ?_⟩
    simp only
    rw [if_neg (by simpa using hne1), if_neg (by simpa using hne2)]

/-- Unfolding membership in `calc_counters`. -/
theorem mem_calc_counters {env : Env} {pid dateFrom : Nat} {rs : List Reading}
    {cu : CounterUsage} :
    cu ∈ calc_counters env pid dateFrom rs ↔
      ∃ t ∈ counter_types_in_period env rs, ∃ lastR,
        (rs.filter (fun r => reading_carries_type r t.id)).getLast? = some lastR ∧
        cu = { counter_type_id := t.id
               counter_start :=
                 (match previous_reading env pid dateFrom with
                  | some prev => prev.get_counter_value t.oid
                  | none => 0)
               counter_end := lastR.get_counter_value t.oid
               total_pages :=
                 max 0 (lastR.get_counter_value t.oid -
                   (match previous_reading env pid dateFrom with
                    | some prev => prev.get_counter_value t.oid
                    | none => 0)) } := by
  unfold calc_counters
  rw [List.mem_filterMap]
  constructor
  · rintro ⟨t, ht, hf⟩
    simp only at hf
    cases hg : (rs.filter (fun r => reading_carries_type r t.id)).getLast? with
    | none => rw [hg] at hf; cases hf
    | some lastR =>
      rw [hg] at hf
      exact ⟨t, ht, lastR, hg, (Option.some.inj hf).symm⟩
  · rintro ⟨t, ht, lastR, hg, rfl⟩
    refine ⟨t, ht, ?_⟩
    simp only
    rw [hg]

/-- Claim C1: for every partner and period, `calculate_usage_by_printer`
returns entries only for the partner's printers; printers with no period
readings, or whose period readings carry no counters, are omitted; for each
counter type appearing in a printer's period readings the entry holds a
delta `max 0 (final - initial)` where `final` is the counter value of the
last period reading carrying the type and `initial` is the counter value of
the latest reading strictly before the period, or 0 when none exists. -/
theorem C1_usage_deltas (env : Env) (partnerId dateFrom dateToEnd : Nat)
    (hids : (env.printers.map Printer.id).Nodup) :
    (∀ u ∈ calculate_usage_by_printer env partnerId dateFrom dateToEnd,
      ∃ p ∈ env.printers, p.partner_id = partnerId ∧ u.printer_id = p.id) ∧
    (∀ p ∈ env.printers,
      ((∀ r ∈ env.readings, r.printer_id = p.id →
          ¬(dateFrom ≤ r.timestamp ∧ r.timestamp ≤ dateToEnd)) ∨
       (∀ r ∈ env.readings, r.printer_id = p.id → dateFrom ≤ r.timestamp →
          r.timestamp ≤ dateToEnd → r.counter_ids = [])) →
      ∀ u ∈ calculate_usage_by_printer env partnerId dateFrom dateToEnd,
        u.printer_id ≠ p.id) ∧
    (∀ p ∈ env.printers, p.partner_id = partnerId →
      ∀ t ∈ env.counter_types,
      ∀ r0 ∈ env.readings, r0.printer_id = p.id → dateFrom ≤ r0.timestamp →
        r0.timestamp ≤ dateToEnd → reading_carries_type r0 t.id = true →
      ∃ u ∈ calculate_usage_by_printer env partnerId dateFrom dateToEnd,
        u.printer_id = p.id ∧
        ∃ cu ∈ u.counters, cu.counter_type_id = t.id ∧
          (∃ lastR ∈ env.readings, lastR.printer_id = p.id ∧
            dateFrom ≤ lastR.timestamp ∧ lastR.timestamp ≤ dateToEnd ∧
            reading_carries_type lastR t.id = true ∧
            (∀ r ∈ env.readings, r.printer_id = p.id → dateFrom ≤ r.timestamp →
              r.timestamp ≤ dateToEnd → reading_carries_type r t.id = true →
              r.timestamp ≤ lastR.timestamp) ∧
            cu.counter_end = lastR.get_counter_value t.oid) ∧
          ((∃ prev ∈ env.readings, prev.printer_id = p.id ∧ prev.timestamp < dateFrom ∧
              (∀ r ∈ env.readings, r.printer_id = p.id → r.timestamp < dateFrom →
                r.timestamp ≤ prev.timestamp) ∧
              cu.counter_start = prev.get_counter_value t.oid) ∨
           ((∀ r ∈ env.readings, r.printer_id = p.id → ¬(r.timestamp < dateFrom)) ∧
              cu.counter_start = 0)) ∧
          cu.total_pages = max 0 (cu.counter_end - cu.counter_start)) := by
  refine ⟨?_, ?_, ?_⟩
  · intro u hu
    obtain ⟨p, hp, hpp, _, _, rfl⟩ := mem_usage_result.mp hu
    exact ⟨p, hp, hpp, rfl⟩
  · intro p hp hcase u hu hpid
    obtain ⟨p2, hp2, hpp2, hne1, hne2, rfl⟩ := mem_usage_result.mp hu
    have hpeq : p2 = p := List.inj_on_of_nodup_map hids hp2 hp hpid
    subst hpeq
    rcases hcase with hA | hB
    · apply hne1
      rw [List.eq_nil_iff_forall_not_mem]
      intro r hrmem
      obtain ⟨hr, hrp, hle1, hle2⟩ := mem_readings_in_period.mp hrmem
      exact hA r hr hrp ⟨hle1, hle2⟩
    · apply hne2
      have htypes : counter_types_in_period env
          (readings_in_period env p2.id dateFrom dateToEnd) = [] := by
        unfold counter_types_in_period
        rw [List.filter_eq_nil_iff]
        intro t _ hpred
        obtain ⟨r, hrmem, hcar⟩ := List.any_eq_true.mp hpred
        obtain ⟨hr, hrp, hle1, hle2⟩ := mem_readings_in_period.mp hrmem
        have hempty := hB r hr hrp hle1 hle2
        unfold reading_carries_type at hcar
        rw [hempty] at hcar
        cases hcar
      unfold calc_counters
      rw [htypes]
      rfl
  · intro p hp hpp t ht r0 hr0 hr0p hle1 hle2 hcar
    have hr0rs : r0 ∈ readings_in_period env p.id dateFrom dateToEnd :=
      mem_readings_in_period.mpr ⟨hr0, hr0p, hle1, hle2⟩
    have htmem : t ∈ counter_types_in_period env
        (readings_in_period env p.id dateFrom dateToEnd) := by
      unfold counter_types_in_period
      exact List.mem_filter.mpr ⟨ht, List.any_eq_true.mpr ⟨r0, hr0rs, hcar⟩⟩
    have hr0F : r0 ∈ (readings_in_period env p.id dateFrom dateToEnd).filter
        (fun r => reading_carries_type r t.id) :=
      List.mem_filter.mpr ⟨hr0rs, hcar⟩
    obtain ⟨lastR, hg⟩ : ∃ lastR,
        ((readings_in_period env p.id dateFrom dateToEnd).filter
          (fun r => reading_carries_type r t.id)).getLast? = some lastR := by
      cases hgl : ((readings_in_period env p.id dateFrom dateToEnd).filter
          (fun r => reading_carries_type r t.id)).getLast? with
      | none =>
        rw [List.getLast?_eq_none_iff] at hgl
        rw [hgl] at hr0F
        cases hr0F
      | some x => exact ⟨x, rfl⟩
    obtain ⟨cu, hcu, hct, hce, hcs0, hctp⟩ :
        ∃ cu ∈ calc_counters env p.id dateFrom
            (readings_in_period env p.id dateFrom dateToEnd),
          cu.counter_type_id = t.id ∧
          cu.counter_end = lastR.get_counter_value t.oid ∧
          cu.counter_start = (match previous_reading env p.id dateFrom with
            | some prev => prev.get_counter_value t.oid
            | none => 0) ∧
          cu.total_pages = max 0 (cu.counter_end - cu.counter_start) :=
      ⟨_, mem_calc_counters.mpr ⟨t, htmem, lastR, hg, rfl⟩, rfl, rfl, rfl, rfl⟩
    have hrsne : readings_in_period env p.id dateFrom dateToEnd ≠ [] :=
      List.ne_nil_of_mem hr0rs
    have hcsne : calc_counters env p.id dateFrom
        (readings_in_period env p.id dateFrom dateToEnd) ≠ [] :=
      List.ne_nil_of_mem hcu
    have hu : ({ printer_id := p.id, printer_name := p.name
                 counters := calc_counters env p.id dateFrom
                   (readings_in_period env p.id dateFrom dateToEnd) } : PrinterUsage) ∈
        calculate_usage_by_printer env partnerId dateFrom dateToEnd :=
      mem_usage_result.mpr ⟨p, hp, hpp, hrsne, hcsne, rfl⟩
    refine ⟨_, hu, rfl, cu, hcu, hct, ?_, ?_, hctp⟩
    · have hlmemF := List.mem_of_getLast?_eq_some hg
      have hlrs : lastR ∈ readings_in_period env p.id dateFrom dateToEnd :=
        (List.mem_filter.mp hlmemF).1
      have hlcar : reading_carries_type lastR t.id = true := (List.mem_filter.mp hlmemF).2
      obtain ⟨hlr, hlp, hl1, hl2⟩ := mem_readings_in_period.mp hlrs
      have hFsorted : ((readings_in_period env p.id dateFrom dateToEnd).filter
          (fun r => reading_carries_type r t.id)).Pairwise readingLe :=
        List.Pairwise.sublist (List.filter_sublist _)
          (sorted_readings_in_period env p.id dateFrom dateToEnd)
      have hmax := pairwise_getLast_le hFsorted hg
      refine ⟨lastR, hlr, hlp, hl1, hl2, hlcar, ?_, hce⟩
      intro r hr hrp hb1 hb2 hcarr
      have hrF : r ∈ (readings_in_period env p.id dateFrom dateToEnd).filter
          (fun r => reading_carries_type r t.id) :=
        List.mem_filter.mpr ⟨mem_readings_in_period.mpr ⟨hr, hrp, hb1, hb2⟩, hcarr⟩
      rcases hmax r hrF with rfl | hle
      · exact Nat.le_refl _
      · exact hle
    · cases hprev : previous_reading env p.id dateFrom with
      | some prev =>
        left
        obtain ⟨hpm, hpp2, hplt, hpmax⟩ := previous_reading_some hprev
        refine ⟨prev, hpm, hpp2, hplt, hpmax, ?_⟩
        rw [hcs0, hprev]
      | none =>
        right
        refine ⟨previous_reading_none.mp hprev, ?_⟩
        rw [hcs0, hprev]

/-- Claim C1 witness: on the two-reading example database, partner 7 gets a
usage entry for printer 1 carrying counter type 1. -/
theorem C1_usage_deltas_witness :
    ∃ u ∈ calculate_usage_by_printer exEnv 7 5 30,
      u.printer_id = exPrinter.id ∧
      ∃ cu ∈ u.counters, cu.counter_type_id = exCounterType.id := by
  obtain ⟨u, hu, hup, cu, hcu, hct, _⟩ :=
    (C1_usage_deltas exEnv 7 5 30 (by decide)).2.2 exPrinter (by decide) rfl
      exCounterType (by decide) exReadingB (by decide) (by decide) (by decide) (by decide)
      (by decide)
  exact ⟨u, hu, hup, cu, hcu, hct⟩

/-- Claim C3: the period `[5, 30]` of `exEnv` holds two readings of printer 1
(values 10 then 20 for counter type 1) and no earlier reading exists.  The
docstring's Case 2 prescribes initial = 10 (the lowest period reading) and
total = 10 for this input, but the code takes the initial counter from the
latest reading before the period — here none, hence 0 — and returns
total = 20. -/
theorem C3_code_behavior_multi_reading_period :
    (readings_in_period exEnv 1 5 30).length = 2 ∧
    (readings_in_period exEnv 1 5 30).head? = some exReadingA ∧
    exReadingA.get_counter_value exCounterType.oid = 10 ∧
    previous_reading exEnv 1 5 = none ∧
    calculate_usage_by_printer exEnv 7 5 30 =
      [{ printer_id := 1, printer_name := "P1"
         counters := [{ counter_type_id := 1, counter_start := 0, counter_end := 20,
                        total_pages := 20 }] }] := by
  decide

/-- Claim C8: usage deltas are `max 0 (counter_end - counter_start)` and
hence nonnegative; a review counter passes `_check_counters_valid` exactly
when `0 ≤ counter_start ≤ counter_end`; and its computed `total_pages` is
`max 0 (counter_end - counter_start)`. -/
theorem C8_nonnegative_pages :
    (∀ (env : Env) (partnerId dateFrom dateToEnd : Nat),
      ∀ u ∈ calculate_usage_by_printer env partnerId dateFrom dateToEnd,
      ∀ cu ∈ u.counters,
        cu.total_pages = max 0 (cu.counter_end - cu.counter_start) ∧ 0 ≤ cu.total_pages) ∧
    (∀ c : ReviewCounter,
      check_counters_valid c = Except.ok () ↔
        (0 ≤ c.counter_start ∧ c.counter_start ≤ c.counter_end)) ∧
    (∀ c : ReviewCounter, c.total_pages = max 0 (c.counter_end - c.counter_start)) := by
  refine ⟨?_, ?_, fun c => rfl⟩
  · intro env partnerId dateFrom dateToEnd u hu cu hcu
    obtain ⟨p, _, _, _, _, rfl⟩ := mem_usage_result.mp hu
    obtain ⟨t, _, lastR, _, rfl⟩ := mem_calc_counters.mp hcu
    exact ⟨rfl, le_max_left 0 _⟩
  · intro c
    unfold check_counters_valid
    constructor
    · intro h
      by_cases h1 : c.counter_start < 0
      · rw [if_pos h1] at h; cases h
      · rw [if_neg h1] at h
        by_cases h2 : c.counter_end < 0
        · rw [if_pos h2] at h; cases h
        · rw [if_neg h2] at h
          by_cases h3 : c.counter_end < c.counter_start
          · rw [if_pos h3] at h; cases h
          · omega
    · intro hse
      rw [if_neg (by omega), if_neg (by omega), if_neg (by omega)]

/-- Claim C8 witness: the example usage entry is nonnegative and a valid
counter passes the constraint. -/
theorem C8_nonnegative_pages_witness :
    (0 ≤ exCounterUsage.total_pages ∧
      exCounterUsage.total_pages =
        max 0 (exCounterUsage.counter_end - exCounterUsage.counter_start)) ∧
    check_counters_valid
      { counter_type_id := 1, counter_name := "Total de Páginas"
        counter_start := 0, counter_end := 100, unit_price := 1 } = Except.ok () := by
  have h := C8_nonnegative_pages
  have h1 := h.1 exEnv 7 5 30
    { printer_id := 1, printer_name := "P1", counters := [exCounterUsage] }
    (by decide) exCounterUsage (by decide)
  exact ⟨⟨h1.2, h1.1⟩, (h.2.1 _).mpr ⟨by decide, by decide⟩⟩

/-! ## Lemmas on the sync endpoints -/

/-- The per-item loop preserves any transitive reflexive relation each item
step establishes. -/
theorem run_sync_loop_inv {σ Item : Type} (process : σ → Item → σ × Option String)
    (Inv : σ → σ → Prop) (hrefl : ∀ s, Inv s s)
    (htrans : ∀ a b c, Inv a b → Inv b c → Inv a c)
    (hstep : ∀ s i, Inv s (process s i).1) :
    ∀ (items : List Item) (s0 : σ), Inv s0 (run_sync_loop process s0 items).1 := by
  intro items
  induction items with
  | nil => intro s0; simpa [run_sync_loop] using hrefl s0
  | cons i is ih =>
    intro s0
    have hs := hstep s0 i
    cases hpi : process s0 i with
    | mk s2 o =>
      rw [hpi] at hs
      cases o with
      | none =>
        simp only [run_sync_loop, hpi]
        exact htrans _ _ _ hs (ih s2)
      | some e =>
        simp only [run_sync_loop, hpi]
        exact htrans _ _ _ hs (ih s2)

/-- One `sync_printers` item only creates or rewrites printers at the
token's location. -/
theorem process_printer_item_scope (locId : Nat) (s : PrintersSyncState) (d : PrinterPayload) :
    ∀ p ∈ (process_printer_item locId s d).1.printers,
      p ∈ s.printers ∨ p.location_id = locId := by
  intro p hp
  unfold process_printer_item at hp
  by_cases h1 : truthyStr d.ip_address = true
  · rw [if_neg (by simp [h1])] at hp
    cases hf : find_printer_for_sync s.printers locId d with
    | some p0 =>
      rw [hf] at hp
      simp only at hp
      obtain ⟨q, hq, hqe⟩ := List.mem_map.mp hp
      by_cases hid : (q.id == p0.id) = true
      · rw [if_pos hid] at hqe
        right
        rw [← hqe]
        rfl
      · rw [if_neg (by simpa using hid)] at hqe
        left
        rw [← hqe]
        exact hq
    | none =>
      rw [hf] at hp
      simp only at hp
      rcases List.mem_append.mp hp with h | h
      · exact Or.inl h
      · right
        have hpe : p = create_printer_values d locId s.next_id := by simpa using h
        rw [hpe]
        rfl
  · have h1f : (!truthyStr d.ip_address) = true := by simp [Bool.not_eq_true'] at h1 ⊢; exact h1
    rw [if_pos h1f] at hp
    exact Or.inl hp

/-- One `sync_readings` item only creates readings for printers of the
token's location. -/
theorem process_reading_item_scope (printers : List PrinterRec) (locId : Nat)
    (s : ReadingsSyncState) (d : ReadingPayload) :
    ∀ rec ∈ (process_reading_item printers locId s d).1.readings,
      rec ∈ s.readings ∨ ∃ p ∈ printers, rec.printer_id = p.id ∧ p.location_id = locId := by
  intro rec hrec
  unfold process_reading_item at hrec
  by_cases h1 : truthyStr d.printer_ip = true
  · rw [if_neg (by simp [h1])] at hrec
    cases hf : printers.find?
        (fun p => p.location_id == locId && p.ip_address == d.printer_ip) with
    | none =>
      rw [hf] at hrec
      exact Or.inl hrec
    | some p0 =>
      rw [hf] at hrec
      simp only at hrec
      rcases List.mem_append.mp hrec with h | h
      · exact Or.inl h
      · right
        have hprops := List.find?_some hf
        simp only [Bool.and_eq_true, beq_iff_eq] at hprops
        have hre : rec = { printer_id := p0.id, timestamp := d.timestamp
                           status := d.status.getD "unknown" } := by simpa using h
        exact ⟨p0, List.mem_of_find?_eq_some hf, by rw [hre], hprops.1⟩
  · have h1f : (!truthyStr d.printer_ip) = true := by
      simp [Bool.not_eq_true'] at h1 ⊢; exact h1
    rw [if_pos h1f] at hrec
    exact Or.inl hrec

/-- A reading item whose IP matches no printer at the token's location is
skipped without creating anything. -/
theorem process_reading_item_skip (printers : List PrinterRec) (locId : Nat)
    (s : ReadingsSyncState) (d : ReadingPayload)
    (hip : truthyStr d.printer_ip = true)
    (hno : ∀ p ∈ printers, ¬(p.location_id = locId ∧ p.ip_address = d.printer_ip)) :
    process_reading_item printers locId s d = ({ s with skipped := s.skipped + 1 }, none) := by
  have hfind : printers.find?
      (fun p => p.location_id == locId && p.ip_address == d.printer_ip) = none := by
    apply List.find?_eq_none.mpr
    intro p hp hcontra
    simp only [Bool.and_eq_true, beq_iff_eq] at hcontra
    exact hno p hp hcontra
  unfold process_reading_item
  rw [if_neg (by simp [hip]), hfind]

/-- One `sync_consumables` item only creates consumables for printers of the
token's location. -/
theorem process_consumable_item_scope (printers : List PrinterRec) (locId : Nat)
    (s : ConsumablesSyncState) (d : ConsumablePayload) :
    ∀ c ∈ (process_consumable_item printers locId s d).1.consumables,
      c ∈ s.consumables ∨ ∃ p ∈ printers, c.printer_id = p.id ∧ p.location_id = locId := by
  intro c hc
  unfold process_consumable_item at hc
  by_cases h1 : (!truthyStr d.printer_ip || !truthyStr d.supply_name) = true
  · rw [if_pos h1] at hc
    exact Or.inl hc
  · rw [if_neg h1] at hc
    cases hf : printers.find?
        (fun p => p.location_id == locId && p.ip_address == d.printer_ip) with
    | none =>
      rw [hf] at hc
      exact Or.inl hc
    | some p0 =>
      rw [hf] at hc
      simp only at hc
      by_cases hex : (s.consumables.any (fun c0 =>
          c0.printer_id == p0.id && c0.supply_name == d.supply_name.getD "")) = true
      · rw [if_pos hex] at hc
        exact Or.inl hc
      · rw [if_neg hex] at hc
        rcases List.mem_append.mp hc with h | h
        · exact Or.inl h
        · right
          have hprops := List.find?_some hf
          simp only [Bool.and_eq_true, beq_iff_eq] at hprops
          have hce : c = { printer_id := p0.id, supply_name := d.supply_name.getD "" } := by
            simpa using h
          exact ⟨p0, List.mem_of_find?_eq_some hf, by rw [hce], hprops.1⟩

/-- A consumable item whose IP matches no printer at the token's location is
skipped without creating anything. -/
theorem process_consumable_item_skip (printers : List PrinterRec) (locId : Nat)
    (s : ConsumablesSyncState) (d : ConsumablePayload)
    (hip : truthyStr d.printer_ip = true) (hsup : truthyStr d.supply_name = true)
    (hno : ∀ p ∈ printers, ¬(p.location_id = locId ∧ p.ip_address = d.printer_ip)) :
    process_consumable_item printers locId s d =
      ({ s with skipped := s.skipped + 1 }, none) := by
  have hfind : printers.find?
      (fun p => p.location_id == locId && p.ip_address == d.printer_ip) = none := by
    apply List.find?_eq_none.mpr
    intro p hp hcontra
    simp only [Bool.and_eq_true, beq_iff_eq] at hcontra
    exact hno p hp hcontra
  unfold process_consumable_item
  rw [if_neg (by simp [hip, hsup]), hfind]

/-- One `sync_alerts` item only creates alerts for printers of the token's
location. -/
theorem process_alert_item_scope (printers : List PrinterRec) (locId : Nat)
    (s : AlertsSyncState) (d : AlertPayload) :
    ∀ a ∈ (process_alert_item printers locId s d).1.alerts,
      a ∈ s.alerts ∨ ∃ p ∈ printers, a.printer_id = p.id ∧ p.location_id = locId := by
  intro a ha
  unfold process_alert_item at ha
  by_cases h1 : truthyStr d.printer_ip = true
  · rw [if_neg (by simp [h1])] at ha
    cases hf : printers.find?
        (fun p => p.location_id == locId && p.ip_address == d.printer_ip) with
    | none =>
      rw [hf] at ha
      exact Or.inl ha
    | some p0 =>
      rw [hf] at ha
      simp only at ha
      by_cases hex : (s.alerts.any (fun a0 =>
          a0.printer_id == p0.id && a0.alert_type == d.alert_type.getD "other"
            && a0.message == d.message
            && decide (d.timestamp - alert_dedup_window ≤ a0.timestamp)
            && !a0.resolved)) = true
      · rw [if_pos hex] at ha
        exact Or.inl ha
      · rw [if_neg hex] at ha
        rcases List.mem_append.mp ha with h | h
        · exact Or.inl h
        · right
          have hprops := List.find?_some hf
          simp only [Bool.and_eq_true, beq_iff_eq] at hprops
          have hae : a = { printer_id := p0.id, alert_type := d.alert_type.getD "other"
                           severity := normalize_severity (d.severity.getD "medium")
                           message := d.message, timestamp := d.timestamp
                           resolved := d.resolved.getD false } := by simpa using h
          exact ⟨p0, List.mem_of_find?_eq_some hf, by rw [hae], hprops.1⟩
  · have h1f : (!truthyStr d.printer_ip) = true := by
      simp [Bool.not_eq_true'] at h1 ⊢; exact h1
    rw [if_pos h1f] at ha
    exact Or.inl ha

/-- An alert item whose IP matches no printer at the token's location is
skipped without creating anything. -/
theorem process_alert_item_skip (printers : List PrinterRec) (locId : Nat)
    (s : AlertsSyncState) (d : AlertPayload)
    (hip : truthyStr d.printer_ip = true)
    (hno : ∀ p ∈ printers, ¬(p.location_id = locId ∧ p.ip_address = d.printer_ip)) :
    process_alert_item printers locId s d = ({ s with skipped := s.skipped + 1 }, none) := by
  have hfind : printers.find?
      (fun p => p.location_id == locId && p.ip_address == d.printer_ip) = none := by
    apply List.find?_eq_none.mpr
    intro p hp hcontra
    simp only [Bool.and_eq_true, beq_iff_eq] at hcontra
    exact hno p hp hcontra
  unfold process_alert_item
  rw [if_neg (by simp [hip]), hfind]

/-- Claim C5: each sync request is scoped to its token's location: every
printer `sync_printers` creates or rewrites carries that location;
`sync_readings`, `sync_consumables` and `sync_alerts` create records only
for printers whose `location_id` is the token's location, and an item whose
IP matches no printer at that location is counted as skipped without
creating anything. -/
theorem C5_sync_location_scoping :
    (∀ (locId : Nat) (s0 : PrintersSyncState) (items : List PrinterPayload),
      ∀ p ∈ (sync_printers locId s0 (Except.ok items)).1.printers,
        p ∈ s0.printers ∨ p.location_id = locId) ∧
    (∀ (printers : List PrinterRec) (locId : Nat) (s0 : ReadingsSyncState)
        (items : List ReadingPayload),
      ∀ rec ∈ (sync_readings printers locId s0 (Except.ok items)).1.readings,
        rec ∈ s0.readings ∨ ∃ p ∈ printers, rec.printer_id = p.id ∧ p.location_id = locId) ∧
    (∀ (printers : List PrinterRec) (locId : Nat) (s : ReadingsSyncState)
        (d : ReadingPayload), truthyStr d.printer_ip = true →
      (∀ p ∈ printers, ¬(p.location_id = locId ∧ p.ip_address = d.printer_ip)) →
      process_reading_item printers locId s d =
        ({ s with skipped := s.skipped + 1 }, none)) ∧
    (∀ (printers : List PrinterRec) (locId : Nat) (s0 : ConsumablesSyncState)
        (items : List ConsumablePayload),
      ∀ c ∈ (sync_consumables printers locId s0 (Except.ok items)).1.consumables,
        c ∈ s0.consumables ∨ ∃ p ∈ printers, c.printer_id = p.id ∧ p.location_id = locId) ∧
    (∀ (printers : List PrinterRec) (locId : Nat) (s : ConsumablesSyncState)
        (d : ConsumablePayload),
      truthyStr d.printer_ip = true → truthyStr d.supply_name = true →
      (∀ p ∈ printers, ¬(p.location_id = locId ∧ p.ip_address = d.printer_ip)) →
      process_consumable_item printers locId s d =
        ({ s with skipped := s.skipped + 1 }, none)) ∧
    (∀ (printers : List PrinterRec) (locId : Nat) (s0 : AlertsSyncState)
        (items : List AlertPayload),
      ∀ a ∈ (sync_alerts printers locId s0 (Except.ok items)).1.alerts,
        a ∈ s0.alerts ∨ ∃ p ∈ printers, a.printer_id = p.id ∧ p.location_id = locId) ∧
    (∀ (printers : List PrinterRec) (locId : Nat) (s : AlertsSyncState) (d : AlertPayload),
      truthyStr d.printer_ip = true →
      (∀ p ∈ printers, ¬(p.location_id = locId ∧ p.ip_address = d.printer_ip)) →
      process_alert_item printers locId s d =
        ({ s with skipped := s.skipped + 1 }, none)) := by
  refine ⟨?_, ?_, process_reading_item_skip, ?_, process_consumable_item_skip, ?_,
    process_alert_item_skip⟩
  · intro locId s0 items
    exact run_sync_loop_inv (process_printer_item locId)
      (fun a b => ∀ p ∈ b.printers, p ∈ a.printers ∨ p.location_id = locId)
      (fun s p hp => Or.inl hp)
      (fun a b c hab hbc p hp => (hbc p hp).elim (fun h => hab p h) Or.inr)
      (fun s i => process_printer_item_scope locId s i) items s0
  · intro printers locId s0 items
    exact run_sync_loop_inv (process_reading_item printers locId)
      (fun a b => ∀ rec ∈ b.readings,
        rec ∈ a.readings ∨ ∃ p ∈ printers, rec.printer_id = p.id ∧ p.location_id = locId)
      (fun s rec hrec => Or.inl hrec)
      (fun a b c hab hbc rec hrec => (hbc rec hrec).elim (fun h => hab rec h) Or.inr)
      (fun s i => process_reading_item_scope printers locId s i) items s0
  · intro printers locId s0 items
    exact run_sync_loop_inv (process_consumable_item printers locId)
      (fun a b => ∀ c ∈ b.consumables,
        c ∈ a.consumables ∨ ∃ p ∈ printers, c.printer_id = p.id ∧ p.location_id = locId)
      (fun s c hc => Or.inl hc)
      (fun a b c hab hbc c0 hc0 => (hbc c0 hc0).elim (fun h => hab c0 h) Or.inr)
      (fun s i => process_consumable_item_scope printers locId s i) items s0
  · intro printers locId s0 items
    exact run_sync_loop_inv (process_alert_item printers locId)
      (fun a b => ∀ al ∈ b.alerts,
        al ∈ a.alerts ∨ ∃ p ∈ printers, al.printer_id = p.id ∧ p.location_id = locId)
      (fun s al hal => Or.inl hal)
      (fun a b c hab hbc al hal => (hbc al hal).elim (fun h => hab al h) Or.inr)
      (fun s i => process_alert_item_scope printers locId s i) items s0

/-- Claim C5 witness: a synced payload creates a printer at the token's
location, and a stray reading IP is skipped creating nothing. -/
theorem C5_sync_location_scoping_witness :
    ({ id := 2, location_id := 3, ip_address := some "10.0.0.20", mac_address := none,
       serial_number := none } : PrinterRec) ∈
        (sync_printers 3 exPrintersState (Except.ok [exPrinterPayload])).1.printers ∧
    (({ id := 2, location_id := 3, ip_address := some "10.0.0.20", mac_address := none,
        serial_number := none } : PrinterRec) ∈ exPrintersState.printers ∨
      ({ id := 2, location_id := 3, ip_address := some "10.0.0.20", mac_address := none,
         serial_number := none } : PrinterRec).location_id = 3) ∧
    process_reading_item [exPrinterRec] 3 exReadingsState exStrayReadingPayload =
      ({ exReadingsState with skipped := exReadingsState.skipped + 1 }, none) := by
  refine ⟨by decide, ?_, ?_⟩
  · exact C5_sync_location_scoping.1 3 exPrintersState [exPrinterPayload]
      { id := 2, location_id := 3, ip_address := some "10.0.0.20", mac_address := none,
        serial_number := none } (by decide)
  · exact C5_sync_location_scoping.2.2.1 [exPrinterRec] 3 exReadingsState
      exStrayReadingPayload (by decide) (by decide)

/-- Claim C6: an error while processing one payload item is recorded in the
errors list and the loop continues with the remaining items; an endpoint
response is `success` exactly when no item produced an error and
`partial_success` otherwise; an error before or outside the loop yields the
`status = error` response. -/
theorem C6_error_isolation :
    (∀ (σ Item : Type) (process : σ → Item → σ × Option String) (s : σ) (i : Item)
        (is : List Item) (s2 : σ) (e : String), process s i = (s2, some e) →
      run_sync_loop process s (i :: is) =
        ((run_sync_loop process s2 is).1, e :: (run_sync_loop process s2 is).2)) ∧
    (∀ (locId : Nat) (s0 : PrintersSyncState) (items : List PrinterPayload),
      ((sync_printers locId s0 (Except.ok items)).2.status = "success" ↔
        (sync_printers locId s0 (Except.ok items)).2.errors = []) ∧
      ((sync_printers locId s0 (Except.ok items)).2.status = "partial_success" ↔
        ¬((sync_printers locId s0 (Except.ok items)).2.errors = []))) ∧
    (∀ (locId : Nat) (s0 : PrintersSyncState) (e : String),
      (sync_printers locId s0 (Except.error e)).2 =
        { status := "error", errors := [], message := some e }) ∧
    (∀ (printers : List PrinterRec) (locId : Nat) (s0 : ReadingsSyncState)
        (items : List ReadingPayload),
      ((sync_readings printers locId s0 (Except.ok items)).2.status = "success" ↔
        (sync_readings printers locId s0 (Except.ok items)).2.errors = []) ∧
      ((sync_readings printers locId s0 (Except.ok items)).2.status = "partial_success" ↔
        ¬((sync_readings printers locId s0 (Except.ok items)).2.errors = []))) ∧
    (∀ (printers : List PrinterRec) (locId : Nat) (s0 : ReadingsSyncState) (e : String),
      (sync_readings printers locId s0 (Except.error e)).2 =
        { status := "error", errors := [], message := some e }) := by
  have hstat : ∀ errs : List String,
      ((loop_response errs).status = "success" ↔ (loop_response errs).errors = []) ∧
      ((loop_response errs).status = "partial_success" ↔
        ¬((loop_response errs).errors = [])) := by
    intro errs
    cases errs with
    | nil => constructor <;> simp [loop_response]
    | cons a t => constructor <;> simp [loop_response]
  refine ⟨?_, ?_, ?_, ?_, ?_⟩
  · intro σ Item process s i is s2 e h
    simp [run_sync_loop, h]
  · intro locId s0 items
    exact hstat _
  · intro locId s0 e
    rfl
  · intro printers locId s0 items
    exact hstat _
  · intro printers locId s0 e
    rfl

/-- Claim C6 witness: a payload item without an IP is recorded as an error,
the loop continues, the endpoint answers `partial_success`, and a failure
before the loop answers `status = error`. -/
theorem C6_error_isolation_witness :
    run_sync_loop (process_printer_item 3) exPrintersState [exNoIpPayload] =
      ((run_sync_loop (process_printer_item 3) exPrintersState
          ([] : List PrinterPayload)).1,
        "Impresora sin IP address" ::
          (run_sync_loop (process_printer_item 3) exPrintersState
            ([] : List PrinterPayload)).2) ∧
    (sync_printers 3 exPrintersState (Except.ok [exNoIpPayload])).2.status =
      "partial_success" ∧
    (sync_printers 3 exPrintersState (Except.error "invalid json")).2 =
      { status := "error", errors := [], message := some "invalid json" } := by
  refine ⟨?_, ?_, ?_⟩
  · exact C6_error_isolation.1 PrintersSyncState PrinterPayload (process_printer_item 3)
      exPrintersState exNoIpPayload [] exPrintersState "Impresora sin IP address" (by decide)
  · exact (C6_error_isolation.2.1 3 exPrintersState [exNoIpPayload]).2.mpr (by decide)
  · exact C6_error_isolation.2.2.1 3 exPrintersState "invalid json"

end PrintFleet
